import Mathlib

/-!
Verification of the BBWAB outbound delivery engine (`src/server.js`).

The repository's `server.js` is a concatenation of several iterations of the
bot.  The claims under scrutiny cite the "duplicate-safe, prioritized
document-first flow" iteration (lines 903-1757) for the transport adapter,
rate limiter, idempotency cache, outbound ledger, retry job worker and
webhook, and the survey-bot iteration (lines 1-902) for the delayed dispatch
queue (`processMessageQueue`).  Both are embedded below.

Modelling conventions:
* Wall-clock times are `Nat` milliseconds.
* The `lru-cache` instances are modelled as TTL association lists
  (newest entry first, first match wins, an entry is dead once
  `ttl` milliseconds have elapsed).  Capacity-based LRU eviction is not
  modelled; none of the properties below depend on it.
* SHA-256 (`crypto.createHash("sha256")...digest("hex")`) is a pure
  function of its input string; it is modelled as an explicit `hash`
  parameter `String → String` threaded through the definitions, so all
  theorems hold for the real hash function.
* One `axios.post` call is one `NetCall`; the gateway's behaviour is an
  oracle `List HttpOutcome` consumed one entry per network attempt.
* `async`/`await` sequencing inside one handler is straight-line state
  passing; a thrown JS error is an explicit `SendResult` constructor.
-/

namespace BBWAB

/-! ## TTL caches (model of `lru-cache` instances) -/

/-- A TTL cache: list of (key, value, storedAt), newest first. -/
abbrev TTLCache (K V : Type) := List (K × V × Nat)

/-- Model of `cache.get k` at time `now`: first entry for `k`; `undefined` once
`ttl` ms have elapsed since the entry was stored. -/
def cacheGet {K V : Type} [DecidableEq K] (ttl now : Nat) :
    TTLCache K V → K → Option V
  | [], _ => none
  | (k', v, t) :: rest, k =>
    if k' = k then (if now < t + ttl then some v else none)
    else cacheGet ttl now rest k

/-- Model of `cache.set k v` at time `now`: prepend; `cacheGet` sees the newest entry. -/
def cacheSet {K V : Type} (c : TTLCache K V) (k : K) (v : V) (now : Nat) :
    TTLCache K V :=
  (k, v, now) :: c

/-! ## String helpers from `server.js`

The JS string primitives (`slice`, `trim`, `split`, `join`,
`toLowerCase`) are modelled by structurally recursive functions over the
character list, so that every definition evaluates inside the kernel. -/

/-- Model of `raw.replace(/\D+/g, "")`: keep only decimal digits. -/
def digitsOf (s : String) : String :=
  String.mk (s.data.filter Char.isDigit)

/-- Model of `s.slice(0, n)`. -/
def strTake (s : String) (n : Nat) : String :=
  String.mk (s.data.take n)

/-- Model of `s.trim()`. -/
def strTrim (s : String) : String :=
  String.mk (((s.data.dropWhile Char.isWhitespace).reverse.dropWhile
    Char.isWhitespace).reverse)

/-- Model of `s.split(c)` for a one-character separator. -/
def splitChar (c : Char) : List Char → List (List Char)
  | [] => [[]]
  | x :: xs =>
    let r := splitChar c xs
    if x = c then [] :: r
    else (x :: r.headD []) :: r.drop 1

/-- Model of `parts.join(sep)`. -/
def joinSep (sep : String) : List String → String
  | [] => ""
  | [x] => x
  | x :: xs => x ++ sep ++ joinSep sep xs

/-- Model of `s.toLowerCase()`. -/
def strToLower (s : String) : String :=
  String.mk (s.data.map Char.toLower)

/-- Model of `normalizePhone` (server.js:1011-1023): trim, then either
`user@domain` with the user part reduced to digits, or the digit string
when it has at least 9 digits; otherwise `null`. -/
def normalizePhone (raw : String) : Option String :=
  if raw = "" then none
  else
    let r := strTrim raw
    if r.data.contains '@' then
      let parts := (splitChar '@' r.data).map String.mk
      let user := digitsOf (parts.headD "")
      let domain := joinSep "@" (parts.drop 1)
      if user = "" then none else some (user ++ "@" ++ domain)
    else
      let digits := digitsOf r
      if 9 ≤ digits.data.length then some digits else none

/-- JS truthiness on an optional string: `null`/`undefined` and `""` are falsy. -/
def jsTruthy (o : Option String) : Option String :=
  match o with
  | some s => if s = "" then none else some s
  | none => none

/-- Model of `JSON.stringify` escaping of one character (common cases). -/
def jsonEscapeChar (c : Char) : String :=
  if c = '"' then "\\\""
  else if c = '\\' then "\\\\"
  else if c = '\n' then "\\n"
  else if c = '\r' then "\\r"
  else if c = '\t' then "\\t"
  else String.mk [c]

/-- Model of `JSON.stringify` of a string value. -/
def jsonStrLit (s : String) : String :=
  "\"" ++ joinSep "" (s.data.map jsonEscapeChar) ++ "\""

/-- Model of `JSON.stringify` of a string-or-null value. -/
def jsonOfOptStr : Option String → String
  | some s => jsonStrLit s
  | none => "null"

/-! ## Fingerprinter (server.js:1043-1051) -/

/-- The JS value passed as `content` to `createMessageFingerprint`:
either a string (text body) or an object of string fields, with field
insertion order preserved. -/
inductive JSContent
  | str (s : String)
  | obj (fields : List (String × String))
deriving DecidableEq

/-- First field with the given name, as JS property access. -/
def getField (fields : List (String × String)) (k : String) : Option String :=
  (fields.find? (fun f => f.1 = k)).map (·.2)

/-- Model of `JSON.stringify` of an object of string fields (insertion order). -/
def stringifyFields (fields : List (String × String)) : String :=
  "\x7b" ++
    joinSep ","
      (fields.map (fun f => jsonStrLit f.1 ++ ":" ++ jsonStrLit f.2)) ++
  "\x7d"

/-- The JSON text of the `content` slot of the fingerprint payload:
`type === "text" ? content : (content.media || content.body || JSON.stringify(content))`.
In the non-text branch the selected value is a string, hence re-quoted. -/
def contentJsonFor (ty : String) (c : JSContent) : String :=
  if ty = "text" then
    match c with
    | .str s => jsonStrLit s
    | .obj fields => stringifyFields fields
  else
    match c with
    | .str s => jsonStrLit s
    | .obj fields =>
      match jsTruthy (getField fields "media") with
      | some m => jsonStrLit m
      | none =>
        match jsTruthy (getField fields "body") with
        | some b => jsonStrLit b
        | none => jsonStrLit (stringifyFields fields)

/-- Model of `JSON.stringify({ to, content, type, timestamp })` for the normalized
fingerprint record. -/
def fingerprintPayload (toSlot : Option String) (contentJson ty : String)
    (bucket : Nat) : String :=
  "\x7b\"to\":" ++ jsonOfOptStr toSlot ++
  ",\"content\":" ++ contentJson ++
  ",\"type\":" ++ jsonStrLit ty ++
  ",\"timestamp\":" ++ toString bucket ++ "\x7d"

/-- Model of `createMessageFingerprint(to, content, type)` (server.js:1043-1051):
sha256 hex of the normalized record, truncated to 12 characters; the time
bucket is the current minute `Math.floor(Date.now() / 60000)`. -/
def createMessageFingerprint (hash : String → String) (nowMs : Nat)
    (toPhone : String) (content : JSContent) (ty : String) : String :=
  strTake (hash (fingerprintPayload (normalizePhone toPhone)
    (contentJsonFor ty content) ty (nowMs / 60000))) 12

/-! ## Configuration (server.js:928-977, defaults) -/

structure Config where
  sendApiKey : String
  sendTextUrl : String := "https://gate.whapi.cloud/messages/text"
  sendDocUrl : String := "https://gate.whapi.cloud/messages/document"
  sendInteractiveUrl : String := "https://gate.whapi.cloud/messages/interactive"
  rateLimitTps : Nat := 5
  sentCacheTtlMs : Nat := 30000
  phantomWindowMs : Nat := 120000
  dedupeTtlMs : Nat := 300000
  jobRetryBaseMs : Nat := 2000
  jobMaxRetries : Nat := 2
  docRetries : Nat := 1
  rateLimitPerMinute : Nat := 2
  introText : String := "intro"
  interactiveBody : String := "choose"
deriving DecidableEq

/-! ## Rate limiter (server.js:1078-1090) -/

/-- Model of `checkRateLimit()`: per-second buckets in `rateLimitWindow`
(`new LRU({ max: 1000, ttl: 1000 })`); returns `false` without side
effects once the current second's count reaches `RATE_LIMIT_TPS`,
otherwise increments and returns `true`. -/
def checkRateLimit (cfg : Config) (now : Nat) (rw : TTLCache Nat Nat) :
    Bool × TTLCache Nat Nat :=
  let sec := now / 1000
  let cnt := (cacheGet 1000 now rw sec).getD 0
  if cfg.rateLimitTps ≤ cnt then (false, rw)
  else (true, cacheSet rw sec (cnt + 1) now)

/-! ## Transport adapter model -/

/-- Gateway behaviour for one `axios.post` attempt: the promise resolves
with an HTTP status, or rejects (`some s` = HTTP error status in
`err.response.status`, `none` = timeout / network error with no response). -/
inductive HttpOutcome
  | ok (status : Nat)
  | err (status : Option Nat)
deriving DecidableEq

/-- Result of one send helper: a resolved value or a thrown error.
`skipped` is the `{skipped: true, fingerprint}` no-op; `rateLimited` is
the thrown rate-limit `Error` (it has no
`response.status`); `httpError` is a rejected axios promise. -/
inductive SendResult
  | skipped (fingerprint : String)
  | success (status : Nat)
  | httpError (status : Option Nat)
  | rateLimited
deriving DecidableEq

/-- Returns `true` iff the result is a thrown JS error (caught by `catch` blocks). -/
def SendResult.isThrow : SendResult → Bool
  | .httpError _ => true
  | .rateLimited => true
  | _ => false

/-- One actual network invocation (`axios.post`). -/
structure NetCall where
  url : String
  bearer : String
  requestId : String
deriving DecidableEq

/-- Value stored in `outboundMessageCache` (the outbound ledger). -/
structure OutboundRecord where
  fingerprint : String
  timestamp : Nat
  traceId : String
  failed : Bool := false
deriving DecidableEq

/-- A retry job in the in-memory `jobs` map (server.js:1168-1175). -/
structure Job where
  id : String
  type : String
  toPhone : String := ""
  body : String := ""
  media : String := ""
  filename : String := ""
  fingerprint : Option String := none
  attempts : Nat := 0
  maxAttempts : Nat := 2
  nextAttemptAt : Nat := 0
  locked : Bool := false
deriving DecidableEq

/-- The mutable process state shared by the send paths, the job worker
and the webhook handler. -/
structure SysState where
  sentCache : TTLCache String Bool := []
  outboundCache : TTLCache String OutboundRecord := []
  rateWindow : TTLCache Nat Nat := []
  dedupe : TTLCache String Bool := []
  jobs : List Job := []
deriving DecidableEq

/-- Result of running one send helper: its return-or-throw, the network
calls it performed, the state afterwards, and the unconsumed gateway
oracle. -/
structure SendOut where
  result : SendResult
  calls : List NetCall
  state : SysState
  rest : List HttpOutcome
deriving DecidableEq

/-- Ledger key for a text attempt:
`out:${toPhone}:${sha256(body).slice(0,12)}`. -/
def msgKeyText (hash : String → String) (toPhone body : String) : String :=
  "out:" ++ toPhone ++ ":" ++ strTake (hash body) 12

/-- Ledger key for a document attempt: `out:${toPhone}:doc:${mediaId}`. -/
def msgKeyDoc (toPhone mediaId : String) : String :=
  "out:" ++ toPhone ++ ":doc:" ++ mediaId

/-- Model of `sendTextOnce` (server.js:1233-1273): idempotency check, rate-limit
check, one `axios.post`; on success mark `sentCache` and record the
attempt in `outboundMessageCache`; on failure record only the failed
ledger entry and re-throw. -/
def sendTextOnce (cfg : Config) (hash : String → String) (now : Nat)
    (traceId toPhone body : String) (s : SysState) (outs : List HttpOutcome) :
    SendOut :=
  let fp := createMessageFingerprint hash now toPhone (.str body) "text"
  if (cacheGet cfg.sentCacheTtlMs now s.sentCache fp).isSome then
    ⟨.skipped fp, [], s, outs⟩
  else
    match checkRateLimit cfg now s.rateWindow with
    | (false, rw) => ⟨.rateLimited, [], { s with rateWindow := rw }, outs⟩
    | (true, rw) =>
      let s1 := { s with rateWindow := rw }
      let call : NetCall := ⟨cfg.sendTextUrl, cfg.sendApiKey, traceId⟩
      match outs.headD (.err none) with
      | .ok st =>
        let s2 := { s1 with
          sentCache := cacheSet s1.sentCache fp true now,
          outboundCache := cacheSet s1.outboundCache
            (msgKeyText hash toPhone body) ⟨fp, now, traceId, false⟩ now }
        ⟨.success st, [call], s2, outs.drop 1⟩
      | .err st =>
        let s2 := { s1 with
          outboundCache := cacheSet s1.outboundCache
            (msgKeyText hash toPhone body) ⟨fp, now, traceId, true⟩ now }
        ⟨.httpError st, [call], s2, outs.drop 1⟩

/-- Model of `sendDocumentJsonOnce` (server.js:1275-1315): same shape as
`sendTextOnce` with the compact JSON document encoding. -/
def sendDocumentJsonOnce (cfg : Config) (hash : String → String) (now : Nat)
    (traceId toPhone mediaId filename : String) (s : SysState)
    (outs : List HttpOutcome) : SendOut :=
  let fp := createMessageFingerprint hash now toPhone
    (.obj [("media", mediaId)]) "document"
  if (cacheGet cfg.sentCacheTtlMs now s.sentCache fp).isSome then
    ⟨.skipped fp, [], s, outs⟩
  else
    match checkRateLimit cfg now s.rateWindow with
    | (false, rw) => ⟨.rateLimited, [], { s with rateWindow := rw }, outs⟩
    | (true, rw) =>
      let s1 := { s with rateWindow := rw }
      let call : NetCall := ⟨cfg.sendDocUrl, cfg.sendApiKey, traceId⟩
      match outs.headD (.err none) with
      | .ok st =>
        let s2 := { s1 with
          sentCache := cacheSet s1.sentCache fp true now,
          outboundCache := cacheSet s1.outboundCache
            (msgKeyDoc toPhone mediaId) ⟨fp, now, traceId, false⟩ now }
        ⟨.success st, [call], s2, outs.drop 1⟩
      | .err st =>
        let s2 := { s1 with
          outboundCache := cacheSet s1.outboundCache
            (msgKeyDoc toPhone mediaId) ⟨fp, now, traceId, true⟩ now }
        ⟨.httpError st, [call], s2, outs.drop 1⟩

/-- Model of `sendDocumentMultipartOnce` (server.js:1317-1347): the multipart
fallback encoding.  Note, as in the source: there is no `checkRateLimit`
call before the network attempt, on success only `sentCache` is written
(no outbound-ledger entry), and on failure nothing is written. -/
def sendDocumentMultipartOnce (cfg : Config) (hash : String → String)
    (now : Nat) (traceId toPhone mediaId filename : String) (s : SysState)
    (outs : List HttpOutcome) : SendOut :=
  let fp := createMessageFingerprint hash now toPhone
    (.obj [("media", mediaId)]) "document"
  if (cacheGet cfg.sentCacheTtlMs now s.sentCache fp).isSome then
    ⟨.skipped fp, [], s, outs⟩
  else
    let call : NetCall := ⟨cfg.sendDocUrl, cfg.sendApiKey, traceId⟩
    match outs.headD (.err none) with
    | .ok st =>
      let s2 := { s with sentCache := cacheSet s.sentCache fp true now }
      ⟨.success st, [call], s2, outs.drop 1⟩
    | .err st =>
      ⟨.httpError st, [call], s, outs.drop 1⟩

/-- Model of `sendInteractiveButtons` (server.js:1432-1479): single JSON encoding,
rate-limit checked; on success only `sentCache` is written. -/
def sendInteractiveButtons (cfg : Config) (hash : String → String)
    (now : Nat) (traceId toPhone : String) (s : SysState)
    (outs : List HttpOutcome) : SendOut :=
  let fp := createMessageFingerprint hash now toPhone
    (.obj [("type", "interactive"),
           ("body", cfg.introText ++ cfg.interactiveBody)]) "interactive"
  if (cacheGet cfg.sentCacheTtlMs now s.sentCache fp).isSome then
    ⟨.skipped fp, [], s, outs⟩
  else
    match checkRateLimit cfg now s.rateWindow with
    | (false, rw) => ⟨.rateLimited, [], { s with rateWindow := rw }, outs⟩
    | (true, rw) =>
      let s1 := { s with rateWindow := rw }
      let call : NetCall := ⟨cfg.sendInteractiveUrl, cfg.sendApiKey, traceId⟩
      match outs.headD (.err none) with
      | .ok st =>
        let s2 := { s1 with sentCache := cacheSet s1.sentCache fp true now }
        ⟨.success st, [call], s2, outs.drop 1⟩
      | .err st =>
        ⟨.httpError st, [call], s1, outs.drop 1⟩

/-- Is the status the fatal `[401, 403].includes(s)` case?  A missing
status (`none`, e.g. timeout or the rate-limit throw) is never fatal. -/
def isFatalStatus : Option Nat → Bool
  | some s => s = 401 || s = 403
  | none => false

/-- One iteration body plus remaining iterations of the
`for (attempt = 0; attempt <= DOC_RETRIES; attempt++)` loop of
`sendDocumentRobust` (server.js:1350-1385).  `fuel` is the number of
iterations left, `lastErr` the status of the last caught error.  The
inter-attempt `sleep` advances no model time. -/
def sendDocumentRobustAux (cfg : Config) (hash : String → String)
    (now : Nat) (traceId toPhone mediaId filename : String) :
    Nat → Option (Option Nat) → SysState → List HttpOutcome → SendOut
  | 0, lastErr, s, outs => ⟨.httpError (lastErr.getD none), [], s, outs⟩
  | fuel + 1, _, s, outs =>
    let r1 := sendDocumentJsonOnce cfg hash now traceId toPhone mediaId
      filename s outs
    match r1.result with
    | .skipped fp => ⟨.skipped fp, r1.calls, r1.state, r1.rest⟩
    | .success st => ⟨.success st, r1.calls, r1.state, r1.rest⟩
    | .httpError st =>
      if isFatalStatus st then ⟨.httpError st, r1.calls, r1.state, r1.rest⟩
      else
        let r2 := sendDocumentMultipartOnce cfg hash now traceId toPhone
          mediaId filename r1.state r1.rest
        match r2.result with
        | .skipped fp => ⟨.skipped fp, r1.calls ++ r2.calls, r2.state, r2.rest⟩
        | .success st2 =>
          ⟨.success st2, r1.calls ++ r2.calls, r2.state, r2.rest⟩
        | .httpError st2 =>
          if isFatalStatus st2 then
            ⟨.httpError st2, r1.calls ++ r2.calls, r2.state, r2.rest⟩
          else
            let r3 := sendDocumentRobustAux cfg hash now traceId toPhone
              mediaId filename fuel (some st2) r2.state r2.rest
            ⟨r3.result, r1.calls ++ r2.calls ++ r3.calls, r3.state, r3.rest⟩
        | .rateLimited =>
          -- unreachable: the multipart path performs no rate-limit check
          let r3 := sendDocumentRobustAux cfg hash now traceId toPhone
            mediaId filename fuel (some none) r2.state r2.rest
          ⟨r3.result, r1.calls ++ r2.calls ++ r3.calls, r3.state, r3.rest⟩
    | .rateLimited =>
      -- the thrown rate-limit error carries no response.status: not fatal,
      -- so the multipart fallback is still attempted
      let r2 := sendDocumentMultipartOnce cfg hash now traceId toPhone
        mediaId filename r1.state r1.rest
      match r2.result with
      | .skipped fp => ⟨.skipped fp, r1.calls ++ r2.calls, r2.state, r2.rest⟩
      | .success st2 => ⟨.success st2, r1.calls ++ r2.calls, r2.state, r2.rest⟩
      | .httpError st2 =>
        if isFatalStatus st2 then
          ⟨.httpError st2, r1.calls ++ r2.calls, r2.state, r2.rest⟩
        else
          let r3 := sendDocumentRobustAux cfg hash now traceId toPhone
            mediaId filename fuel (some st2) r2.state r2.rest
          ⟨r3.result, r1.calls ++ r2.calls ++ r3.calls, r3.state, r3.rest⟩
      | .rateLimited =>
        let r3 := sendDocumentRobustAux cfg hash now traceId toPhone
          mediaId filename fuel (some none) r2.state r2.rest
        ⟨r3.result, r1.calls ++ r2.calls ++ r3.calls, r3.state, r3.rest⟩

/-- Model of `sendDocumentRobust` (server.js:1350-1385): up to `DOC_RETRIES + 1`
iterations, each trying the JSON encoding then the multipart fallback,
with the fatal 401/403 short-circuit. -/
def sendDocumentRobust (cfg : Config) (hash : String → String) (now : Nat)
    (traceId toPhone mediaId filename : String) (s : SysState)
    (outs : List HttpOutcome) : SendOut :=
  sendDocumentRobustAux cfg hash now traceId toPhone mediaId filename
    (cfg.docRetries + 1) none s outs

/-! ## Retry job worker (server.js:1168-1229) -/

/-- Model of `jobs.delete(id)` on the insertion-ordered map. -/
def deleteJob : List Job → String → List Job
  | [], _ => []
  | j :: rest, id =>
    if j.id = id then deleteJob rest id else j :: deleteJob rest id

/-- Model of `jobs.set(j.id, j)` for an id already present: replace in place. -/
def updateJob : List Job → Job → List Job
  | [], _ => []
  | j :: rest, j' =>
    (if j.id = j'.id then j' else j) :: updateJob rest j'

/-- Model of `job.fingerprint || (job.type === "doc" ? createMessageFingerprint(...)
: createMessageFingerprint(...))` (server.js:1193). -/
def jobFingerprint (hash : String → String) (now : Nat) (job : Job) :
    String :=
  match jsTruthy job.fingerprint with
  | some fp => fp
  | none =>
    if job.type = "doc" then
      createMessageFingerprint hash now job.toPhone
        (.obj [("media", job.media)]) "document"
    else
      createMessageFingerprint hash now job.toPhone (.str job.body) "text"

/-- The worker's `catch` block (server.js:1213-1227): `attempts++`,
unlock, delete once `attempts >= maxAttempts`, otherwise reschedule with
exponential backoff `JOB_RETRY_BASE_MS * 2 ** (attempts - 1)`.  Runs for
every thrown error, with no inspection of the error's status. -/
def jobCatch (cfg : Config) (now : Nat) (job : Job) (s : SysState) :
    SysState :=
  let a := job.attempts + 1
  if job.maxAttempts ≤ a then { s with jobs := deleteJob s.jobs job.id }
  else
    let backoff := cfg.jobRetryBaseMs * 2 ^ (a - 1)
    let j' := { job with attempts := a, locked := false,
                         nextAttemptAt := now + backoff }
    { s with jobs := updateJob s.jobs j' }

/-- Processing of one selected job inside the worker tick
(server.js:1186-1227): lock it, re-check the idempotency cache
(skip + delete on a hit), attempt delivery, delete on success, run the
catch block on a throw; unknown job types are deleted. -/
def processJob (cfg : Config) (hash : String → String) (now : Nat)
    (traceId : String) (job : Job) (s : SysState) (outs : List HttpOutcome) :
    SysState × List NetCall :=
  let s0 := { s with jobs := updateJob s.jobs { job with locked := true } }
  let fp := jobFingerprint hash now job
  if (cacheGet cfg.sentCacheTtlMs now s0.sentCache fp).isSome then
    ({ s0 with jobs := deleteJob s0.jobs job.id }, [])
  else if job.type = "doc" then
    let r := sendDocumentRobust cfg hash now traceId job.toPhone job.media
      job.filename s0 outs
    if r.result.isThrow then (jobCatch cfg now job r.state, r.calls)
    else ({ r.state with jobs := deleteJob r.state.jobs job.id }, r.calls)
  else if job.type = "text" then
    let r := sendTextOnce cfg hash now traceId job.toPhone job.body s0 outs
    if r.result.isThrow then (jobCatch cfg now job r.state, r.calls)
    else ({ r.state with jobs := deleteJob r.state.jobs job.id }, r.calls)
  else
    ({ s0 with jobs := deleteJob s0.jobs job.id }, [])

/-- One tick of the worker `setInterval` (server.js:1183-1229):
select ready unlocked jobs, at most `JOB_WORKER_BATCH = 1` per tick,
and process them.  Returns the new state, the network calls made, and
the id of the processed job, if any. -/
def workerTick (cfg : Config) (hash : String → String) (now : Nat)
    (traceId : String) (s : SysState) (outs : List HttpOutcome) :
    SysState × List NetCall × Option String :=
  let ready := (s.jobs.filter
    (fun j => decide (j.nextAttemptAt ≤ now) && !j.locked)).take 1
  match ready with
  | [] => (s, [], none)
  | job :: _ =>
    let w := processJob cfg hash now traceId job s outs
    (w.1, w.2, some job.id)

/-- Input of one worker tick: the tick's wall-clock time, the trace id
drawn for that tick, and the gateway oracle for its attempts. -/
structure TickInput where
  now : Nat
  traceId : String := ""
  outs : List HttpOutcome := []
deriving DecidableEq

/-- Run a sequence of worker ticks; the log records, per tick, the id of
the job processed (if any) and the network calls made. -/
def runTicks (cfg : Config) (hash : String → String) :
    List TickInput → SysState → SysState × List (Option String × List NetCall)
  | [], s => (s, [])
  | t :: ts, s =>
    let w := workerTick cfg hash t.now t.traceId s t.outs
    let r := runTicks cfg hash ts w.1
    (r.1, (w.2.2, w.2.1) :: r.2)

/-- Number of ticks in a log that processed the job with id `jid`. -/
def processedCount (log : List (Option String × List NetCall))
    (jid : String) : Nat :=
  (log.filter (fun e => e.1 = some jid)).length

/-! ## Webhook handler (server.js:1584-1754) -/

/-- The inbound event as produced by `extractCommon`. -/
structure IncomingMessage where
  messageId : Option String := none
  sender : Option String := none
  fromMe : Bool := false
  text : Option String := none
  docId : Option String := none
  buttonId : Option String := none
deriving DecidableEq

/-- Model of the three shapes produced by `extractCommon`. -/
inductive ExtractedEvent
  | status
  | unknown
  | message (m : IncomingMessage)
deriving DecidableEq

/-- The HTTP response the webhook route sends. -/
inductive WebhookResult
  | invalidToken
  | ignoredStatus
  | ignored
  | ignoredFromMe
  | missingSender
  | ignoredPhantom
  | ignoredSelf
  | duplicateWebhook
  | acceptedCategory (cat : String)
  | unknownButton
  | acceptedTyped (cat : String)
  | introInteractive
deriving DecidableEq

/-- Business logic the handler triggers (the fire-and-forget async
blocks and the final awaited interactive send). -/
inductive BizAction
  | sendText (toPhone body : String)
  | sendDocFlow (toPhone mediaId filename : String)
  | sendInteractive (toPhone : String)
deriving DecidableEq

/-- Category table `getCategoryData` (server.js:1529-1538); media ids
come from the environment. -/
def getCategoryData (mediaIds : String → String) (categoryId : String) :
    Option (String × String) :=
  if categoryId = "tv" then some (mediaIds "tv", "tv.pdf")
  else if categoryId = "ac" then some (mediaIds "ac", "ac.pdf")
  else if categoryId = "refrigerator" then
    some (mediaIds "refrigerator", "refrigerator.pdf")
  else if categoryId = "washing_machine" then
    some (mediaIds "washing_machine", "washing_machine.pdf")
  else if categoryId = "kitchen_home" then
    some (mediaIds "kitchen_home", "kitchen_home.pdf")
  else none

/-- Model of `normalizeButtonId`: last colon-separated part, lowercased. -/
def normalizeButtonId (rawId : String) : String :=
  strToLower (String.mk ((splitChar ':' rawId.data).getLastD rawId.data))

/-- The `/webhook` route (server.js:1584-1754), from the extracted event
to the response.  The guard sequence is: token, event kind, `from_me`,
sender normalization, phantom-delivery checks against the outbound
ledger, self-sender check, webhook dedupe, then the button / typed /
intro business branches (returned as `BizAction`s; their own transport
effects are modelled by the send functions above).  The branches after
the dedupe guard are abbreviated: the category success message and the
typed-keyword synonym table are parameterized/shortened, since every
property proved below is decided strictly before those branches run. -/
def webhookHandler (cfg : Config) (hash : String → String) (now : Nat)
    (tokenOk : Bool) (senderPhone : Option String)
    (mediaIds : String → String) (ev : ExtractedEvent) (s : SysState) :
    WebhookResult × SysState × List BizAction :=
  if !tokenOk then (.invalidToken, s, [])
  else
    match ev with
    | .status => (.ignoredStatus, s, [])
    | .unknown => (.ignored, s, [])
    | .message m =>
      if m.fromMe then (.ignoredFromMe, s, [])
      else
        let messageId := m.messageId.getD (toString now)
        match normalizePhone (m.sender.getD "") with
        | none => (.missingSender, s, [])
        | some sender =>
          let phantomText :=
            match jsTruthy m.text with
            | some txt =>
              (cacheGet cfg.phantomWindowMs now s.outboundCache
                (msgKeyText hash sender txt)).isSome
            | none => false
          if phantomText then (.ignoredPhantom, s, [])
          else
            let phantomDoc :=
              match jsTruthy m.docId with
              | some docId =>
                (cacheGet cfg.phantomWindowMs now s.outboundCache
                  (msgKeyDoc sender docId)).isSome
              | none => false
            if phantomDoc then (.ignoredPhantom, s, [])
            else if (senderPhone.bind normalizePhone) = some sender then
              (.ignoredSelf, s, [])
            else if (cacheGet cfg.dedupeTtlMs now s.dedupe messageId).isSome
            then (.duplicateWebhook, s, [])
            else
              let s1 := { s with dedupe := cacheSet s.dedupe messageId true now }
              match m.buttonId with
              | some rawId =>
                let catId := normalizeButtonId rawId
                match getCategoryData mediaIds catId with
                | some (mediaId, filename) =>
                  (.acceptedCategory catId, s1,
                    [.sendText sender ("deal:" ++ catId),
                     .sendDocFlow sender mediaId filename])
                | none =>
                  (.unknownButton, s1,
                    [.sendText sender "Sorry, that option was not recognized. Please try again."])
              | none =>
                let typed := strToLower (strTrim (m.text.getD ""))
                match getCategoryData mediaIds typed with
                | some (mediaId, filename) =>
                  (.acceptedTyped typed, s1,
                    [.sendText sender ("deal:" ++ typed),
                     .sendDocFlow sender mediaId filename])
                | none =>
                  (.introInteractive, s1, [.sendInteractive sender])

/-! ## Delayed dispatch queue (survey-bot iteration, server.js:347-455) -/

/-- The survey-bot iteration's `checkRateLimit` (server.js:347-359):
per-minute buckets bounded by `RATE_LIMIT_PER_MINUTE`. -/
def checkRateLimitV1 (cfg : Config) (now : Nat) (rw : TTLCache Nat Nat) :
    Bool × TTLCache Nat Nat :=
  let minute := now / 60000
  let cnt := (cacheGet 60000 now rw minute).getD 0
  if cfg.rateLimitPerMinute ≤ cnt then (false, rw)
  else (true, cacheSet rw minute (cnt + 1) now)

/-- An entry of `messageQueue` (server.js:387-394). -/
structure QueueItem where
  id : String
  phoneNumber : String
  messageType : String
  dataText : String := ""
  executeAt : Nat
  attempts : Nat := 0
deriving DecidableEq

/-- State touched by the survey-bot dispatch loop: the delayed queue,
the in-flight id set and the per-minute rate window. -/
structure V1State where
  messageQueue : List QueueItem := []
  processingQueue : List String := []
  rateWindow : TTLCache Nat Nat := []
deriving DecidableEq

/-- Model of `messageQueue.splice(index, 1)` for the first item with this id. -/
def removeFirstById : List QueueItem → String → List QueueItem
  | [], _ => []
  | m :: rest, id =>
    if m.id = id then rest else m :: removeFirstById rest id

/-- The body of the `for` loop of `processMessageQueue` over the snapshot of
ready messages (server.js:407-424): stop for this tick when the rate
budget is exhausted; otherwise mark in-flight, splice the message out of
`messageQueue` before executing it, run `executeQueuedMessage` with the
error caught and logged only, and finally clear the in-flight mark.
`exec` is the outcome oracle for `executeQueuedMessage` (`true` =
resolves, `false` = throws).  The returned log lists every executed
message with its outcome. -/
def processReady (cfg : Config) (now : Nat) (exec : QueueItem → Bool) :
    List QueueItem → V1State → V1State × List (QueueItem × Bool)
  | [], s => (s, [])
  | m :: rest, s =>
    let c := checkRateLimitV1 cfg now s.rateWindow
    if c.1 then
      let s1 : V1State :=
        { messageQueue := removeFirstById s.messageQueue m.id,
          processingQueue := m.id :: s.processingQueue,
          rateWindow := c.2 }
      let outcome := exec m
      let s2 : V1State :=
        { s1 with processingQueue := s1.processingQueue.filter (· ≠ m.id) }
      let r := processReady cfg now exec rest s2
      (r.1, (m, outcome) :: r.2)
    else
      ({ s with rateWindow := c.2 }, [])

/-- Model of `processMessageQueue` (server.js:403-425): snapshot the ready,
not-in-flight messages, then run the loop body over the snapshot. -/
def processMessageQueue (cfg : Config) (now : Nat)
    (exec : QueueItem → Bool) (s : V1State) :
    V1State × List (QueueItem × Bool) :=
  let ready := s.messageQueue.filter
    (fun m => decide (m.executeAt ≤ now) && !(s.processingQueue.contains m.id))
  processReady cfg now exec ready s

/-! ## Shared fixtures and auxiliary notions for the theorems -/

/-- Concrete configuration with the server.js defaults. -/
def testCfg : Config := { sendApiKey := "secret-key" }

/-- String reversal: a concrete injective stand-in for the sha256 hex
digest in closed evaluations (the real digest is likewise a pure
injective-in-practice function of its input). -/
def strRev (s : String) : String := String.mk s.data.reverse

/-- A state whose rate budget for second 0 is already exhausted
(five acquisitions recorded at time 0). -/
def exhaustedState : SysState := { rateWindow := [(0, 5, 0)] }

/-- Model of `jobs.get(jid)` on the insertion-ordered map. -/
def findJob : List Job → String → Option Job
  | [], _ => none
  | j :: rest, jid => if j.id = jid then some j else findJob rest jid

/-- One send through a path that consults the rate limiter
(immediate/queued/retried text, document-JSON, interactive). -/
inductive RLOp
  | text (traceId toPhone body : String)
  | docJson (traceId toPhone mediaId filename : String)
  | inter (traceId toPhone : String)

/-- Dispatch of one rate-limited send. -/
def runRLOp (cfg : Config) (hash : String → String) (t : Nat) (op : RLOp)
    (s : SysState) (outs : List HttpOutcome) : SendOut :=
  match op with
  | .text tr toP b => sendTextOnce cfg hash t tr toP b s outs
  | .docJson tr toP m f => sendDocumentJsonOnce cfg hash t tr toP m f s outs
  | .inter tr toP => sendInteractiveButtons cfg hash t tr toP s outs

/-- Run a sequence of timed rate-limited sends, counting the total
number of network invocations performed. -/
def runRLOps (cfg : Config) (hash : String → String) :
    List (Nat × RLOp × List HttpOutcome) → SysState → SysState × Nat
  | [], s => (s, 0)
  | (t, op, outs) :: rest, s =>
    let r := runRLOp cfg hash t op s outs
    let (s', n) := runRLOps cfg hash rest r.state
    (s', r.calls.length + n)

/-- The stored counter for a second bucket, ignoring expiry. -/
def rawCount (rw : TTLCache Nat Nat) (sec : Nat) : Nat :=
  match rw.find? (fun e => e.1 = sec) with
  | some e => e.2.1
  | none => 0

/-- Every entry for bucket `sec` was stored during second `sec`. -/
def secInv (rw : TTLCache Nat Nat) (sec : Nat) : Prop :=
  ∀ e ∈ rw, e.1 = sec → 1000 * sec ≤ e.2.2 ∧ e.2.2 < 1000 * (sec + 1)

lemma time_in_sec_bounds {t sec : Nat} (ht : t / 1000 = sec) :
    1000 * sec ≤ t ∧ t < 1000 * (sec + 1) := by
  constructor
  · calc 1000 * sec = 1000 * (t / 1000) := by rw [ht]
      _ ≤ t := Nat.mul_div_le t 1000
  · have h : t / 1000 < sec + 1 := by omega
    have := (Nat.div_lt_iff_lt_mul (by norm_num : 0 < 1000)).mp h
    omega

/-- Within the second that all its entries were stored in, the TTL read
of the rate window agrees with the raw stored counter. -/
lemma cacheGet_eq_rawCount {rw : TTLCache Nat Nat} {sec t : Nat}
    (hinv : secInv rw sec) (ht : t / 1000 = sec) :
    (cacheGet 1000 t rw sec).getD 0 = rawCount rw sec := by
  induction rw with
  | nil => rfl
  | cons e rest ih =>
    obtain ⟨k, v, ts⟩ := e
    by_cases hk : k = sec
    · subst hk
      have hts : 1000 * k ≤ ts ∧ ts < 1000 * (k + 1) :=
        hinv (k, v, ts) (List.mem_cons_self _ _) rfl
      have hlt : t < ts + 1000 := by
        have h2 := (time_in_sec_bounds ht).2
        omega
      simp [cacheGet, rawCount, List.find?, hlt]
    · have htl : secInv rest sec :=
        fun e he => hinv e (List.mem_cons_of_mem _ he)
      have hih := ih htl
      simpa [cacheGet, rawCount, List.find?, hk] using hih

/-- Storing via `cacheSet` into the current bucket increments the raw counter. -/
lemma rawCount_cacheSet (rw : TTLCache Nat Nat) (sec v t : Nat) :
    rawCount (cacheSet rw sec v t) sec = v := by
  simp [rawCount, cacheSet, List.find?]

/-- The invariant `secInv` is preserved by storing at a time inside the second. -/
lemma secInv_cacheSet {rw : TTLCache Nat Nat} {sec t : Nat} (v : Nat)
    (hinv : secInv rw sec) (ht : t / 1000 = sec) :
    secInv (cacheSet rw sec v t) sec := by
  intro e he hke
  rcases List.mem_cons.mp he with h | h
  · subst h; exact time_in_sec_bounds ht
  · exact hinv e h hke

/-- Rate-limiter effect of one rate-limited send: either nothing was
sent and the window is untouched, or exactly one network call was made,
the bucket counter incremented from strictly below the budget, and the
storage invariant is preserved. -/
lemma runRLOp_rate_step (cfg : Config) (hash : String → String) (t : Nat)
    (op : RLOp) (s : SysState) (outs : List HttpOutcome) (sec : Nat)
    (hinv : secInv s.rateWindow sec) (ht : t / 1000 = sec) :
    (let r := runRLOp cfg hash t op s outs
     (r.calls = [] ∧ r.state.rateWindow = s.rateWindow) ∨
     (r.calls.length = 1 ∧
      rawCount r.state.rateWindow sec = rawCount s.rateWindow sec + 1 ∧
      rawCount s.rateWindow sec < cfg.rateLimitTps ∧
      secInv r.state.rateWindow sec)) := by
  have hget := cacheGet_eq_rawCount hinv ht
  have step : ∀ r : SendOut,
      (r.calls = [] ∧ r.state.rateWindow = s.rateWindow) ∨
      (r.calls.length = 1 ∧
        r.state.rateWindow =
          cacheSet s.rateWindow sec
            ((cacheGet 1000 t s.rateWindow sec).getD 0 + 1) t ∧
        ¬ cfg.rateLimitTps ≤ (cacheGet 1000 t s.rateWindow sec).getD 0) →
      (r.calls = [] ∧ r.state.rateWindow = s.rateWindow) ∨
      (r.calls.length = 1 ∧
        rawCount r.state.rateWindow sec = rawCount s.rateWindow sec + 1 ∧
        rawCount s.rateWindow sec < cfg.rateLimitTps ∧
        secInv r.state.rateWindow sec) := by
    rintro r (h | ⟨hc, hrw, hle⟩)
    · exact Or.inl h
    · refine Or.inr ⟨hc, ?_, by omega, ?_⟩
      · rw [hrw, rawCount_cacheSet, hget]
      · rw [hrw]; exact secInv_cacheSet _ hinv ht
  refine step _ ?_
  cases op with
  | text tr toP b =>
    simp only [runRLOp, sendTextOnce, checkRateLimit, ht]
    by_cases h1 : (cacheGet cfg.sentCacheTtlMs t s.sentCache
        (createMessageFingerprint hash t toP (.str b) "text")).isSome
    · simp only [h1, if_true]
      left
      constructor <;> trivial
    · simp only [h1, Bool.false_eq_true, if_false]
      by_cases h2 : cfg.rateLimitTps ≤
          (cacheGet 1000 t s.rateWindow sec).getD 0
      · simp only [if_pos h2]
        left
        constructor <;> trivial
      · simp only [if_neg h2]
        cases houts : outs.headD (.err none) <;>
          (right; refine ⟨by trivial, by trivial, h2⟩)
  | docJson tr toP m f =>
    simp only [runRLOp, sendDocumentJsonOnce, checkRateLimit, ht]
    by_cases h1 : (cacheGet cfg.sentCacheTtlMs t s.sentCache
        (createMessageFingerprint hash t toP (.obj [("media", m)])
          "document")).isSome
    · simp only [h1, if_true]
      left
      constructor <;> trivial
    · simp only [h1, Bool.false_eq_true, if_false]
      by_cases h2 : cfg.rateLimitTps ≤
          (cacheGet 1000 t s.rateWindow sec).getD 0
      · simp only [if_pos h2]
        left
        constructor <;> trivial
      · simp only [if_neg h2]
        cases houts : outs.headD (.err none) <;>
          (right; refine ⟨by trivial, by trivial, h2⟩)
  | inter tr toP =>
    simp only [runRLOp, sendInteractiveButtons, checkRateLimit, ht]
    by_cases h1 : (cacheGet cfg.sentCacheTtlMs t s.sentCache
        (createMessageFingerprint hash t toP
          (.obj [("type", "interactive"),
                 ("body", cfg.introText ++ cfg.interactiveBody)])
          "interactive")).isSome
    · simp only [h1, if_true]
      left
      constructor <;> trivial
    · simp only [h1, Bool.false_eq_true, if_false]
      by_cases h2 : cfg.rateLimitTps ≤
          (cacheGet 1000 t s.rateWindow sec).getD 0
      · simp only [if_pos h2]
        left
        constructor <;> trivial
      · simp only [if_neg h2]
        cases houts : outs.headD (.err none) <;>
          (right; refine ⟨by trivial, by trivial, h2⟩)

/-- Budget bound for any sequence of rate-limited sends inside one
one-second window. -/
lemma runRLOps_rate_bound (cfg : Config) (hash : String → String)
    (sec : Nat) :
    ∀ (ops : List (Nat × RLOp × List HttpOutcome)) (s : SysState),
      (∀ e ∈ ops, e.1 / 1000 = sec) → secInv s.rateWindow sec →
      rawCount s.rateWindow sec ≤ cfg.rateLimitTps →
      (runRLOps cfg hash ops s).2 + rawCount s.rateWindow sec ≤
        cfg.rateLimitTps := by
  intro ops
  induction ops with
  | nil => intro s _ _ hle; simpa [runRLOps] using hle
  | cons e rest ih =>
    intro s hts hinv hle
    obtain ⟨t, op, outs⟩ := e
    have ht : t / 1000 = sec := hts (t, op, outs) (List.mem_cons_self _ _)
    have htr : ∀ e ∈ rest, e.1 / 1000 = sec :=
      fun e he => hts e (List.mem_cons_of_mem _ he)
    have hstep := runRLOp_rate_step cfg hash t op s outs sec hinv ht
    simp only [runRLOps]
    rcases hstep with ⟨hc, hrw⟩ | ⟨hc, hraw, hlt, hinv'⟩
    · have := ih (runRLOp cfg hash t op s outs).state htr (hrw ▸ hinv)
        (hrw ▸ hle)
      rw [hrw] at this
      simp only [hc, List.length_nil]
      omega
    · have := ih (runRLOp cfg hash t op s outs).state htr hinv' (by omega)
      rw [hraw] at this
      omega

/-! ## Equation lemmas for the send helpers -/

lemma sendTextOnce_success_eq (cfg : Config) (hash : String → String)
    (now : Nat) (tr toP b : String) (s : SysState) (outs : List HttpOutcome)
    (st : Nat)
    (hr : (sendTextOnce cfg hash now tr toP b s outs).result = .success st) :
    sendTextOnce cfg hash now tr toP b s outs =
      ⟨.success st,
       [⟨cfg.sendTextUrl, cfg.sendApiKey, tr⟩],
       { s with
         rateWindow := cacheSet s.rateWindow (now / 1000)
           ((cacheGet 1000 now s.rateWindow (now / 1000)).getD 0 + 1) now,
         sentCache := cacheSet s.sentCache
           (createMessageFingerprint hash now toP (.str b) "text") true now,
         outboundCache := cacheSet s.outboundCache (msgKeyText hash toP b)
           ⟨createMessageFingerprint hash now toP (.str b) "text", now, tr,
            false⟩ now },
       outs.drop 1⟩ := by
  simp only [sendTextOnce, checkRateLimit] at *
  by_cases h1 : (cacheGet cfg.sentCacheTtlMs now s.sentCache
      (createMessageFingerprint hash now toP (.str b) "text")).isSome
  · simp [h1] at hr
  · simp only [h1, Bool.false_eq_true, if_false] at hr ⊢
    by_cases h2 : cfg.rateLimitTps ≤
        (cacheGet 1000 now s.rateWindow (now / 1000)).getD 0
    · simp [h2] at hr
    · simp only [if_neg h2] at hr ⊢
      cases houts : outs.headD (HttpOutcome.err none) with
      | ok st0 =>
        rw [houts] at hr
        have hst : SendResult.success st0 = SendResult.success st := hr
        injection hst with h
        subst h
        rfl
      | err st0 =>
        rw [houts] at hr
        exact absurd (show SendResult.httpError st0 = SendResult.success st
          from hr) (by simp)

lemma sendTextOnce_httpError_eq (cfg : Config) (hash : String → String)
    (now : Nat) (tr toP b : String) (s : SysState) (outs : List HttpOutcome)
    (est : Option Nat)
    (hr : (sendTextOnce cfg hash now tr toP b s outs).result =
      .httpError est) :
    sendTextOnce cfg hash now tr toP b s outs =
      ⟨.httpError est,
       [⟨cfg.sendTextUrl, cfg.sendApiKey, tr⟩],
       { s with
         rateWindow := cacheSet s.rateWindow (now / 1000)
           ((cacheGet 1000 now s.rateWindow (now / 1000)).getD 0 + 1) now,
         outboundCache := cacheSet s.outboundCache (msgKeyText hash toP b)
           ⟨createMessageFingerprint hash now toP (.str b) "text", now, tr,
            true⟩ now },
       outs.drop 1⟩ := by
  simp only [sendTextOnce, checkRateLimit] at *
  by_cases h1 : (cacheGet cfg.sentCacheTtlMs now s.sentCache
      (createMessageFingerprint hash now toP (.str b) "text")).isSome
  · simp [h1] at hr
  · simp only [h1, Bool.false_eq_true, if_false] at hr ⊢
    by_cases h2 : cfg.rateLimitTps ≤
        (cacheGet 1000 now s.rateWindow (now / 1000)).getD 0
    · simp [h2] at hr
    · simp only [if_neg h2] at hr ⊢
      cases houts : outs.headD (HttpOutcome.err none) with
      | ok st0 =>
        rw [houts] at hr
        exact absurd (show SendResult.success st0 = SendResult.httpError est
          from hr) (by simp)
      | err st0 =>
        rw [houts] at hr
        have hst : SendResult.httpError st0 = SendResult.httpError est := hr
        injection hst with h
        subst h
        rfl

lemma sendDocumentJsonOnce_success_eq (cfg : Config)
    (hash : String → String) (now : Nat) (tr toP m f : String)
    (s : SysState) (outs : List HttpOutcome) (st : Nat)
    (hr : (sendDocumentJsonOnce cfg hash now tr toP m f s outs).result =
      .success st) :
    sendDocumentJsonOnce cfg hash now tr toP m f s outs =
      ⟨.success st,
       [⟨cfg.sendDocUrl, cfg.sendApiKey, tr⟩],
       { s with
         rateWindow := cacheSet s.rateWindow (now / 1000)
           ((cacheGet 1000 now s.rateWindow (now / 1000)).getD 0 + 1) now,
         sentCache := cacheSet s.sentCache
           (createMessageFingerprint hash now toP (.obj [("media", m)])
             "document") true now,
         outboundCache := cacheSet s.outboundCache (msgKeyDoc toP m)
           ⟨createMessageFingerprint hash now toP (.obj [("media", m)])
             "document", now, tr, false⟩ now },
       outs.drop 1⟩ := by
  simp only [sendDocumentJsonOnce, checkRateLimit] at *
  by_cases h1 : (cacheGet cfg.sentCacheTtlMs now s.sentCache
      (createMessageFingerprint hash now toP (.obj [("media", m)])
        "document")).isSome
  · simp [h1] at hr
  · simp only [h1, Bool.false_eq_true, if_false] at hr ⊢
    by_cases h2 : cfg.rateLimitTps ≤
        (cacheGet 1000 now s.rateWindow (now / 1000)).getD 0
    · simp [h2] at hr
    · simp only [if_neg h2] at hr ⊢
      cases houts : outs.headD (HttpOutcome.err none) with
      | ok st0 =>
        rw [houts] at hr
        have hst : SendResult.success st0 = SendResult.success st := hr
        injection hst with h
        subst h
        rfl
      | err st0 =>
        rw [houts] at hr
        exact absurd (show SendResult.httpError st0 = SendResult.success st
          from hr) (by simp)

lemma sendDocumentJsonOnce_httpError_eq (cfg : Config)
    (hash : String → String) (now : Nat) (tr toP m f : String)
    (s : SysState) (outs : List HttpOutcome) (est : Option Nat)
    (hr : (sendDocumentJsonOnce cfg hash now tr toP m f s outs).result =
      .httpError est) :
    sendDocumentJsonOnce cfg hash now tr toP m f s outs =
      ⟨.httpError est,
       [⟨cfg.sendDocUrl, cfg.sendApiKey, tr⟩],
       { s with
         rateWindow := cacheSet s.rateWindow (now / 1000)
           ((cacheGet 1000 now s.rateWindow (now / 1000)).getD 0 + 1) now,
         outboundCache := cacheSet s.outboundCache (msgKeyDoc toP m)
           ⟨createMessageFingerprint hash now toP (.obj [("media", m)])
             "document", now, tr, true⟩ now },
       outs.drop 1⟩ := by
  simp only [sendDocumentJsonOnce, checkRateLimit] at *
  by_cases h1 : (cacheGet cfg.sentCacheTtlMs now s.sentCache
      (createMessageFingerprint hash now toP (.obj [("media", m)])
        "document")).isSome
  · simp [h1] at hr
  · simp only [h1, Bool.false_eq_true, if_false] at hr ⊢
    by_cases h2 : cfg.rateLimitTps ≤
        (cacheGet 1000 now s.rateWindow (now / 1000)).getD 0
    · simp [h2] at hr
    · simp only [if_neg h2] at hr ⊢
      cases houts : outs.headD (HttpOutcome.err none) with
      | ok st0 =>
        rw [houts] at hr
        exact absurd (show SendResult.success st0 = SendResult.httpError est
          from hr) (by simp)
      | err st0 =>
        rw [houts] at hr
        have hst : SendResult.httpError st0 = SendResult.httpError est := hr
        injection hst with h
        subst h
        rfl

lemma sendDocumentMultipartOnce_success_eq (cfg : Config)
    (hash : String → String) (now : Nat) (tr toP m f : String)
    (s : SysState) (outs : List HttpOutcome) (st : Nat)
    (hr : (sendDocumentMultipartOnce cfg hash now tr toP m f s outs).result =
      .success st) :
    sendDocumentMultipartOnce cfg hash now tr toP m f s outs =
      ⟨.success st,
       [⟨cfg.sendDocUrl, cfg.sendApiKey, tr⟩],
       { s with
         sentCache := cacheSet s.sentCache
           (createMessageFingerprint hash now toP (.obj [("media", m)])
             "document") true now },
       outs.drop 1⟩ := by
  simp only [sendDocumentMultipartOnce] at *
  by_cases h1 : (cacheGet cfg.sentCacheTtlMs now s.sentCache
      (createMessageFingerprint hash now toP (.obj [("media", m)])
        "document")).isSome
  · simp [h1] at hr
  · simp only [h1, Bool.false_eq_true, if_false] at hr ⊢
    cases houts : outs.headD (HttpOutcome.err none) with
    | ok st0 =>
      rw [houts] at hr
      have hst : SendResult.success st0 = SendResult.success st := hr
      injection hst with h
      subst h
      rfl
    | err st0 =>
      rw [houts] at hr
      exact absurd (show SendResult.httpError st0 = SendResult.success st
        from hr) (by simp)

lemma sendDocumentMultipartOnce_httpError_eq (cfg : Config)
    (hash : String → String) (now : Nat) (tr toP m f : String)
    (s : SysState) (outs : List HttpOutcome) (est : Option Nat)
    (hr : (sendDocumentMultipartOnce cfg hash now tr toP m f s outs).result =
      .httpError est) :
    sendDocumentMultipartOnce cfg hash now tr toP m f s outs =
      ⟨.httpError est, [⟨cfg.sendDocUrl, cfg.sendApiKey, tr⟩], s,
       outs.drop 1⟩ := by
  simp only [sendDocumentMultipartOnce] at *
  by_cases h1 : (cacheGet cfg.sentCacheTtlMs now s.sentCache
      (createMessageFingerprint hash now toP (.obj [("media", m)])
        "document")).isSome
  · simp [h1] at hr
  · simp only [h1, Bool.false_eq_true, if_false] at hr ⊢
    cases houts : outs.headD (HttpOutcome.err none) with
    | ok st0 =>
      rw [houts] at hr
      exact absurd (show SendResult.success st0 = SendResult.httpError est
        from hr) (by simp)
    | err st0 =>
      rw [houts] at hr
      have hst : SendResult.httpError st0 = SendResult.httpError est := hr
      injection hst with h
      subst h
      rfl

lemma sendTextOnce_skipped_eq (cfg : Config) (hash : String → String)
    (now : Nat) (tr toP b : String) (s : SysState) (outs : List HttpOutcome)
    (h1 : (cacheGet cfg.sentCacheTtlMs now s.sentCache
      (createMessageFingerprint hash now toP (.str b) "text")).isSome) :
    sendTextOnce cfg hash now tr toP b s outs =
      ⟨.skipped (createMessageFingerprint hash now toP (.str b) "text"),
       [], s, outs⟩ := by
  simp only [sendTextOnce, h1, if_true]

lemma sendTextOnce_rateLimited_eq (cfg : Config) (hash : String → String)
    (now : Nat) (tr toP b : String) (s : SysState) (outs : List HttpOutcome)
    (h1 : ¬ (cacheGet cfg.sentCacheTtlMs now s.sentCache
      (createMessageFingerprint hash now toP (.str b) "text")).isSome)
    (h2 : cfg.rateLimitTps ≤
      (cacheGet 1000 now s.rateWindow (now / 1000)).getD 0) :
    sendTextOnce cfg hash now tr toP b s outs =
      ⟨.rateLimited, [], s, outs⟩ := by
  simp only [sendTextOnce, checkRateLimit, h1, Bool.false_eq_true, if_false,
    if_pos h2]

/-! ## The send helpers never touch the jobs map -/

lemma sendTextOnce_jobs (cfg : Config) (hash : String → String) (now : Nat)
    (tr toP b : String) (s : SysState) (outs : List HttpOutcome) :
    (sendTextOnce cfg hash now tr toP b s outs).state.jobs = s.jobs := by
  simp only [sendTextOnce]
  repeat' split
  all_goals rfl

lemma sendDocumentJsonOnce_jobs (cfg : Config) (hash : String → String)
    (now : Nat) (tr toP m f : String) (s : SysState)
    (outs : List HttpOutcome) :
    (sendDocumentJsonOnce cfg hash now tr toP m f s outs).state.jobs =
      s.jobs := by
  simp only [sendDocumentJsonOnce]
  repeat' split
  all_goals rfl

lemma sendDocumentMultipartOnce_jobs (cfg : Config)
    (hash : String → String) (now : Nat) (tr toP m f : String)
    (s : SysState) (outs : List HttpOutcome) :
    (sendDocumentMultipartOnce cfg hash now tr toP m f s outs).state.jobs =
      s.jobs := by
  simp only [sendDocumentMultipartOnce]
  repeat' split
  all_goals rfl

lemma sendDocumentRobustAux_jobs (cfg : Config) (hash : String → String)
    (now : Nat) (tr toP m f : String) :
    ∀ (fuel : Nat) (lastErr : Option (Option Nat)) (s : SysState)
      (outs : List HttpOutcome),
      (sendDocumentRobustAux cfg hash now tr toP m f fuel lastErr s
        outs).state.jobs = s.jobs := by
  intro fuel
  induction fuel with
  | zero => intro lastErr s outs; rfl
  | succ n ih =>
    intro lastErr s outs
    simp only [sendDocumentRobustAux]
    have hj1 := sendDocumentJsonOnce_jobs cfg hash now tr toP m f s outs
    set r1 := sendDocumentJsonOnce cfg hash now tr toP m f s outs with hr1
    have hj2 := sendDocumentMultipartOnce_jobs cfg hash now tr toP m f
      r1.state r1.rest
    set r2 := sendDocumentMultipartOnce cfg hash now tr toP m f r1.state
      r1.rest with hr2
    cases hres : r1.result with
    | skipped fp => simpa using hj1
    | success st => simpa using hj1
    | httpError st =>
      by_cases hf : isFatalStatus st
      · simp only [hf, if_true]; simpa using hj1
      · simp only [hf, Bool.false_eq_true, if_false]
        cases hres2 : r2.result with
        | skipped fp => simp only []; rw [hj2, hj1]
        | success st2 => simp only []; rw [hj2, hj1]
        | httpError st2 =>
          by_cases hf2 : isFatalStatus st2
          · simp only [hf2, if_true]; rw [hj2, hj1]
          · simp only [hf2, Bool.false_eq_true, if_false]
            rw [ih, hj2, hj1]
        | rateLimited =>
          simp only []
          rw [ih, hj2, hj1]
    | rateLimited =>
      cases hres2 : r2.result with
      | skipped fp => simp only []; rw [hj2, hj1]
      | success st2 => simp only []; rw [hj2, hj1]
      | httpError st2 =>
        by_cases hf2 : isFatalStatus st2
        · simp only [hf2, if_true]; rw [hj2, hj1]
        · simp only [hf2, Bool.false_eq_true, if_false]
          rw [ih, hj2, hj1]
      | rateLimited =>
        simp only []
        rw [ih, hj2, hj1]

lemma sendDocumentRobust_jobs (cfg : Config) (hash : String → String)
    (now : Nat) (tr toP m f : String) (s : SysState)
    (outs : List HttpOutcome) :
    (sendDocumentRobust cfg hash now tr toP m f s outs).state.jobs =
      s.jobs :=
  sendDocumentRobustAux_jobs cfg hash now tr toP m f _ _ s outs

/-! ## Jobs-map lemmas -/

lemma findJob_deleteJob_self (l : List Job) (jid : String) :
    findJob (deleteJob l jid) jid = none := by
  induction l with
  | nil => rfl
  | cons j rest ih =>
    by_cases h : j.id = jid
    · simpa [deleteJob, h] using ih
    · simpa [deleteJob, findJob, h] using ih

lemma findJob_deleteJob_ne (l : List Job) (jid id : String)
    (h : jid ≠ id) :
    findJob (deleteJob l id) jid = findJob l jid := by
  induction l with
  | nil => rfl
  | cons j rest ih =>
    by_cases hj : j.id = id
    · have hne : ¬ j.id = jid := by
        rw [hj]; exact fun he => h he.symm
      simp only [deleteJob, if_pos hj, findJob, if_neg hne]
      exact ih
    · simp only [deleteJob, if_neg hj, findJob]
      by_cases hjid : j.id = jid
      · simp only [if_pos hjid]
      · simp only [if_neg hjid]
        exact ih

lemma findJob_updateJob_self (l : List Job) (j' : Job)
    (h : (findJob l j'.id).isSome) :
    findJob (updateJob l j') j'.id = some j' := by
  induction l with
  | nil => simp [findJob] at h
  | cons j rest ih =>
    by_cases hj : j.id = j'.id
    · simp [updateJob, findJob, hj]
    · simp only [updateJob, if_neg hj, findJob, if_neg hj]
      simp only [findJob, if_neg hj] at h
      exact ih h

lemma findJob_updateJob_ne (l : List Job) (j' : Job) (jid : String)
    (h : j'.id ≠ jid) :
    findJob (updateJob l j') jid = findJob l jid := by
  induction l with
  | nil => rfl
  | cons j rest ih =>
    by_cases hj : j.id = j'.id
    · have hne2 : ¬ j.id = jid := by rw [hj]; exact h
      simp only [updateJob, if_pos hj, findJob, if_neg h, if_neg hne2]
      exact ih
    · simp only [updateJob, if_neg hj, findJob]
      by_cases hjid : j.id = jid
      · simp only [if_pos hjid]
      · simp only [if_neg hjid]
        exact ih

lemma updateJob_map_id (l : List Job) (j' : Job) :
    (updateJob l j').map (fun j => j.id) = l.map (fun j => j.id) := by
  induction l with
  | nil => rfl
  | cons j rest ih =>
    by_cases hj : j.id = j'.id
    · simp [updateJob, if_pos hj, List.map_cons, ih, hj]
    · simp [updateJob, if_neg hj, List.map_cons, ih]

lemma findJob_isSome_updateJob (l : List Job) (j' : Job) (jid : String)
    (h : (findJob l jid).isSome) :
    (findJob (updateJob l j') jid).isSome := by
  by_cases he : j'.id = jid
  · subst he
    rw [findJob_updateJob_self l j' h]
    rfl
  · rw [findJob_updateJob_ne l j' jid he]
    exact h

lemma findJob_none_updateJob (l : List Job) (j' : Job) (jid : String)
    (h : findJob l jid = none) :
    findJob (updateJob l j') jid = none := by
  induction l with
  | nil => rfl
  | cons j rest ih =>
    by_cases hjid : j.id = jid
    · simp [findJob, hjid] at h
    · simp only [findJob, if_neg hjid] at h
      by_cases hj : j.id = j'.id
      · have : ¬ j'.id = jid := by rw [← hj]; exact hjid
        simp only [updateJob, if_pos hj, findJob, if_neg this]
        exact ih h
      · simp only [updateJob, if_neg hj, findJob, if_neg hjid]
        exact ih h

lemma findJob_of_mem_nodup (l : List Job) (j : Job)
    (hnd : (l.map (fun x => x.id)).Nodup) (hm : j ∈ l) :
    findJob l j.id = some j := by
  induction l with
  | nil => cases hm
  | cons x rest ih =>
    rw [List.map_cons, List.nodup_cons] at hnd
    rcases List.mem_cons.mp hm with h | h
    · subst h
      simp [findJob]
    · have hx : ¬ x.id = j.id := by
        intro he
        exact hnd.1 (he ▸ List.mem_map.mpr ⟨j, h, rfl⟩)
      simp only [findJob, if_neg hx]
      exact ih hnd.2 h

/-- Lookup via `findJob` is `isSome` exactly when some member carries the id. -/
lemma findJob_isSome_iff (l : List Job) (jid : String) :
    (findJob l jid).isSome ↔ ∃ j ∈ l, j.id = jid := by
  induction l with
  | nil => simp [findJob]
  | cons x rest ih =>
    by_cases hx : x.id = jid
    · simp [findJob, hx]
    · simp only [findJob, if_neg hx, ih, List.mem_cons]
      constructor
      · rintro ⟨j, hj, he⟩
        exact ⟨j, Or.inr hj, he⟩
      · rintro ⟨j, hj | hj, he⟩
        · subst hj; exact absurd he hx
        · exact ⟨j, hj, he⟩

/-- Processing one job either deletes it from the (locked-updated) map or
reschedules it with one more attempt, strictly below `maxAttempts`, at
`now + base * 2 ^ attempts` (backoff exponent = post-increment
`attempts - 1`).  Every other job record is untouched by either shape. -/
lemma processJob_cases (cfg : Config) (hash : String → String) (now : Nat)
    (tr : String) (job : Job) (s : SysState) (outs : List HttpOutcome) :
    (processJob cfg hash now tr job s outs).1.jobs =
        deleteJob (updateJob s.jobs { job with locked := true }) job.id ∨
    (job.attempts + 1 < job.maxAttempts ∧
     (processJob cfg hash now tr job s outs).1.jobs =
       updateJob (updateJob s.jobs { job with locked := true })
         { job with attempts := job.attempts + 1, locked := false,
                    nextAttemptAt :=
                      now + cfg.jobRetryBaseMs * 2 ^ job.attempts }) := by
  have hjd := sendDocumentRobust_jobs cfg hash now tr job.toPhone job.media
    job.filename { s with jobs := updateJob s.jobs { job with locked := true } }
    outs
  have hjt := sendTextOnce_jobs cfg hash now tr job.toPhone job.body
    { s with jobs := updateJob s.jobs { job with locked := true } } outs
  simp only [processJob]
  split
  · exact Or.inl rfl
  · split
    · split
      · simp only [jobCatch]
        split
        · rename_i hmax
          exact Or.inl (by rw [hjd])
        · rename_i hmax
          refine Or.inr ⟨by omega, ?_⟩
          rw [hjd]
          simp
      · exact Or.inl (by rw [hjd])
    · split
      · split
        · simp only [jobCatch]
          split
          · rename_i hmax
            exact Or.inl (by rw [hjt])
          · rename_i hmax
            refine Or.inr ⟨by omega, ?_⟩
            rw [hjt]
            simp
        · exact Or.inl (by rw [hjt])
      · exact Or.inl rfl

/-- A worker tick either selects no job and leaves the state alone, or
selects one member job and transforms the jobs map as `processJob_cases`
describes. -/
lemma workerTick_shape (cfg : Config) (hash : String → String) (now : Nat)
    (tr : String) (s : SysState) (outs : List HttpOutcome) :
    ((workerTick cfg hash now tr s outs).2.2 = none ∧
     (workerTick cfg hash now tr s outs).1 = s) ∨
    (∃ job, job ∈ s.jobs ∧
      (workerTick cfg hash now tr s outs).2.2 = some job.id ∧
      ((workerTick cfg hash now tr s outs).1.jobs =
          deleteJob (updateJob s.jobs { job with locked := true }) job.id ∨
       (job.attempts + 1 < job.maxAttempts ∧
        (workerTick cfg hash now tr s outs).1.jobs =
          updateJob (updateJob s.jobs { job with locked := true })
            { job with attempts := job.attempts + 1, locked := false,
                       nextAttemptAt :=
                         now + cfg.jobRetryBaseMs * 2 ^ job.attempts }))) := by
  simp only [workerTick]
  cases hready : (s.jobs.filter
      (fun j => decide (j.nextAttemptAt ≤ now) && !j.locked)).take 1 with
  | nil => exact Or.inl ⟨rfl, rfl⟩
  | cons job rest =>
    refine Or.inr ⟨job, ?_, rfl, ?_⟩
    · have hmem : job ∈ (s.jobs.filter
          (fun j => decide (j.nextAttemptAt ≤ now) && !j.locked)).take 1 := by
        rw [hready]; exact List.mem_cons_self _ _
      exact (List.mem_filter.mp (List.take_subset 1 _ hmem)).1
    · exact processJob_cases cfg hash now tr job s outs

/-- Deletion via `deleteJob` yields a sublist of the original ids. -/
lemma deleteJob_map_id_sublist (l : List Job) (id : String) :
    ((deleteJob l id).map (fun j => j.id)).Sublist
      (l.map (fun j => j.id)) := by
  induction l with
  | nil => simp [deleteJob]
  | cons j rest ih =>
    by_cases hj : j.id = id
    · simp only [deleteJob, if_pos hj, List.map_cons]
      exact ih.cons _
    · simp only [deleteJob, if_neg hj, List.map_cons]
      exact ih.cons₂ _

/-- One step of the tick relation, viewed through `findJob`:
ids stay nodup; an absent id stays absent and is never selected; a tick
that does not select the id leaves its record unchanged; a tick that
selects it either removes it or increments its attempt counter strictly
below its `maxAttempts`. -/
lemma workerTick_findJob_step (cfg : Config) (hash : String → String)
    (now : Nat) (tr : String) (s : SysState) (outs : List HttpOutcome)
    (jid : String) (hnd : (s.jobs.map (fun j => j.id)).Nodup) :
    (((workerTick cfg hash now tr s outs).1.jobs.map
        (fun j => j.id)).Nodup) ∧
    (findJob s.jobs jid = none →
      findJob (workerTick cfg hash now tr s outs).1.jobs jid = none ∧
      (workerTick cfg hash now tr s outs).2.2 ≠ some jid) ∧
    ((workerTick cfg hash now tr s outs).2.2 ≠ some jid →
      findJob (workerTick cfg hash now tr s outs).1.jobs jid =
        findJob s.jobs jid) ∧
    ((workerTick cfg hash now tr s outs).2.2 = some jid →
      ∃ j, findJob s.jobs jid = some j ∧
        (findJob (workerTick cfg hash now tr s outs).1.jobs jid = none ∨
         ∃ j2, findJob (workerTick cfg hash now tr s outs).1.jobs jid =
             some j2 ∧
           j2.attempts = j.attempts + 1 ∧ j2.maxAttempts = j.maxAttempts ∧
           j2.attempts < j2.maxAttempts)) := by
  rcases workerTick_shape cfg hash now tr s outs with ⟨hpid, hst⟩ |
    ⟨job, hmem, hpid, hjobs | ⟨hlt, hjobs⟩⟩
  · refine ⟨by rw [hst]; exact hnd, ?_, ?_, ?_⟩
    · intro h; exact ⟨by rw [hst]; exact h, by rw [hpid]; simp⟩
    · intro _; rw [hst]
    · intro h; rw [hpid] at h; cases h
  · -- delete shape
    have hids : ((workerTick cfg hash now tr s outs).1.jobs.map
        (fun j => j.id)).Sublist (s.jobs.map (fun j => j.id)) := by
      rw [hjobs]
      have h1 := deleteJob_map_id_sublist
        (updateJob s.jobs { job with locked := true }) job.id
      rwa [updateJob_map_id] at h1
    refine ⟨hids.nodup hnd, ?_, ?_, ?_⟩
    · intro h
      constructor
      · rw [hjobs]
        by_cases he : job.id = jid
        · rw [← he, findJob_deleteJob_self]
        · rw [findJob_deleteJob_ne _ _ _ (fun hx => he hx.symm)]
          exact findJob_none_updateJob _ _ _ h
      · rw [hpid]
        intro hx
        injection hx with hx
        have : (findJob s.jobs jid).isSome :=
          (findJob_isSome_iff s.jobs jid).mpr ⟨job, hmem, hx⟩
        rw [h] at this
        cases this
    · intro hne
      rw [hpid] at hne
      have he : job.id ≠ jid := fun h => hne (by rw [h])
      have he1 : ({ job with locked := true } : Job).id ≠ jid := he
      rw [hjobs, findJob_deleteJob_ne _ _ _ (fun hx => he hx.symm),
        findJob_updateJob_ne _ _ _ he1]
    · intro h
      rw [hpid] at h
      injection h with h
      subst h
      refine ⟨job, findJob_of_mem_nodup s.jobs job hnd hmem, Or.inl ?_⟩
      rw [hjobs, findJob_deleteJob_self]
  · -- reschedule shape
    have hids : ((workerTick cfg hash now tr s outs).1.jobs.map
        (fun j => j.id)) = s.jobs.map (fun j => j.id) := by
      rw [hjobs, updateJob_map_id, updateJob_map_id]
    refine ⟨by rw [hids]; exact hnd, ?_, ?_, ?_⟩
    · intro h
      constructor
      · rw [hjobs]
        exact findJob_none_updateJob _ _ _ (findJob_none_updateJob _ _ _ h)
      · rw [hpid]
        intro hx
        injection hx with hx
        have : (findJob s.jobs jid).isSome :=
          (findJob_isSome_iff s.jobs jid).mpr ⟨job, hmem, hx⟩
        rw [h] at this
        cases this
    · intro hne
      rw [hpid] at hne
      have he : job.id ≠ jid := fun h => hne (by rw [h])
      have h1 := findJob_updateJob_ne s.jobs { job with locked := true }
        jid he
      have h2 := findJob_updateJob_ne
        (updateJob s.jobs { job with locked := true })
        { job with
            attempts := job.attempts + 1, locked := false,
            nextAttemptAt := now + cfg.jobRetryBaseMs * 2 ^ job.attempts }
        jid he
      rw [hjobs, h2, h1]
    · intro h
      rw [hpid] at h
      injection h with h
      subst h
      refine ⟨job, findJob_of_mem_nodup s.jobs job hnd hmem, Or.inr ?_⟩
      refine ⟨{ job with
          attempts := job.attempts + 1, locked := false,
          nextAttemptAt := now + cfg.jobRetryBaseMs * 2 ^ job.attempts },
        ?_, rfl, rfl, hlt⟩
      rw [hjobs]
      have hsome : (findJob (updateJob s.jobs { job with locked := true })
          job.id).isSome := by
        apply findJob_isSome_updateJob
        rw [findJob_of_mem_nodup s.jobs job hnd hmem]
        rfl
      exact findJob_updateJob_self _ _ hsome

/-- Unfolding of `processedCount` over one log entry. -/
lemma processedCount_cons (e : Option String × List NetCall)
    (log : List (Option String × List NetCall)) (jid : String) :
    processedCount (e :: log) jid =
      (if e.1 = some jid then 1 else 0) + processedCount log jid := by
  simp only [processedCount, List.filter_cons]
  by_cases h : e.1 = some jid
  · simp [h]
    omega
  · simp [h]

/-- Remaining processing budget of a job record. -/
def jobBudget : Option Job → Nat
  | none => 0
  | some j => max 1 (j.maxAttempts - j.attempts)

/-- Bounded processing: over any tick sequence, the job with id `jid` is
selected at most `max 1 (maxAttempts - attempts)` times. -/
lemma runTicks_processedCount_le (cfg : Config) (hash : String → String) :
    ∀ (ticks : List TickInput) (s : SysState) (jid : String),
      (s.jobs.map (fun j => j.id)).Nodup →
      processedCount (runTicks cfg hash ticks s).2 jid ≤
        jobBudget (findJob s.jobs jid) := by
  intro ticks
  induction ticks with
  | nil =>
    intro s jid _
    simp [runTicks, processedCount, jobBudget]
  | cons t ts ih =>
    intro s jid hnd
    obtain ⟨hnd', hnone, hother, hsel⟩ :=
      workerTick_findJob_step cfg hash t.now t.traceId s t.outs jid hnd
    simp only [runTicks, processedCount_cons]
    have hrest := ih (workerTick cfg hash t.now t.traceId s t.outs).1 jid
      hnd'
    by_cases hp : (workerTick cfg hash t.now t.traceId s t.outs).2.2 =
        some jid
    · obtain ⟨j, hfind, hcase⟩ := hsel hp
      rw [hfind]
      simp only [jobBudget]
      rcases hcase with hn | ⟨j2, hf2, ha2, hm2, hlt2⟩
      · rw [hn] at hrest
        simp only [jobBudget] at hrest
        simp only [if_pos hp]
        omega
      · rw [hf2] at hrest
        simp only [jobBudget] at hrest
        simp only [if_pos hp]
        omega
    · have heq := hother hp
      rw [heq] at hrest
      simp only [if_neg hp]
      omega

/-! ## Claim C1 -/

/-- Claim C1 counterexample: with the budget for second 0 already
exhausted (count 5 = `RATE_LIMIT_TPS`), `sendTextOnce` is refused with
no network call, but `sendDocumentMultipartOnce` — which never calls
`checkRateLimit` — still performs a network invocation (exceeding the
per-second budget) and does not even advance the rate window. -/
theorem multipart_bypasses_rate_limiter_cex :
    (cacheGet 1000 100 exhaustedState.rateWindow (100 / 1000)).getD 0 =
      testCfg.rateLimitTps ∧
    (sendTextOnce testCfg strRev 100 "t0" "911234567890" "hello"
      exhaustedState [.ok 200]).calls = [] ∧
    (sendDocumentMultipartOnce testCfg strRev 100 "t1" "911234567890" "M1"
      "f.pdf" exhaustedState [.ok 200]).result = .success 200 ∧
    (sendDocumentMultipartOnce testCfg strRev 100 "t1" "911234567890" "M1"
      "f.pdf" exhaustedState [.ok 200]).calls.length = 1 ∧
    (sendDocumentMultipartOnce testCfg strRev 100 "t1" "911234567890" "M1"
      "f.pdf" exhaustedState [.ok 200]).state.rateWindow =
      exhaustedState.rateWindow := by
  decide

/-- Claim C1 (amended): the send paths that do consult the rate limiter
— immediate/queued/retried text, document-JSON, interactive — perform at
most `RATE_LIMIT_TPS` network invocations within any single one-second
window starting from a fresh rate window, however many sends are
attempted; the multipart document fallback is exempt from this bound
because it never calls `checkRateLimit` (see the counterexample). -/
theorem rate_limited_sends_bounded_per_second (cfg : Config)
    (hash : String → String) (sec : Nat)
    (ops : List (Nat × RLOp × List HttpOutcome)) (s : SysState)
    (hts : ∀ e ∈ ops, e.1 / 1000 = sec) (h0 : s.rateWindow = []) :
    (runRLOps cfg hash ops s).2 ≤ cfg.rateLimitTps := by
  have hinv : secInv s.rateWindow sec := by
    rw [h0]; intro e he; cases he
  have hraw : rawCount s.rateWindow sec = 0 := by rw [h0]; rfl
  have hb := runRLOps_rate_bound cfg hash sec ops s hts hinv
    (by rw [hraw]; omega)
  rw [hraw] at hb
  omega

/-- Witness for `rate_limited_sends_bounded_per_second` at a concrete
two-send sequence inside second 0. -/
theorem rate_limited_sends_bounded_per_second_witness :
    (runRLOps testCfg strRev
      [(0, .text "t0" "911234567890" "hello", [.ok 200]),
       (1, .text "t1" "911234567890" "hello", [.ok 200])]
      { }).2 ≤ testCfg.rateLimitTps :=
  rate_limited_sends_bounded_per_second testCfg strRev 0
    [(0, .text "t0" "911234567890" "hello", [.ok 200]),
     (1, .text "t1" "911234567890" "hello", [.ok 200])]
    { } (by decide) rfl

/-! ## Claim C5 -/

/-- Claim C5 counterexample: a successful multipart document attempt
writes no Outbound Ledger entry at all — `outboundMessageCache` stays
empty — refuting "on success ... both the Idempotency Cache entry and
the Outbound Ledger entry are written" for that wire encoding. -/
theorem multipart_success_writes_no_ledger_cex :
    (sendDocumentMultipartOnce testCfg strRev 0 "t1" "911234567890" "M1"
      "f.pdf" { } [.ok 200]).result = .success 200 ∧
    (sendDocumentMultipartOnce testCfg strRev 0 "t1" "911234567890" "M1"
      "f.pdf" { } [.ok 200]).state.sentCache ≠ [] ∧
    (sendDocumentMultipartOnce testCfg strRev 0 "t1" "911234567890" "M1"
      "f.pdf" { } [.ok 200]).state.outboundCache = [] := by
  decide

/-- Claim C5 (amended): for the text and document-JSON paths, a
successful attempt writes both the idempotency entry and a succeeded
ledger entry before returning, and a failed attempt writes only a
failed-marked ledger entry, leaving the idempotency cache unchanged.
The multipart path deviates: success writes only the idempotency entry
(no ledger record), and failure writes nothing at all. -/
theorem transport_cache_ledger_frame :
    (∀ (cfg : Config) (hash : String → String) (now : Nat)
       (tr toP b : String) (s : SysState) (outs : List HttpOutcome)
       (st : Nat),
       (sendTextOnce cfg hash now tr toP b s outs).result = .success st →
       (sendTextOnce cfg hash now tr toP b s outs).state.sentCache =
         cacheSet s.sentCache
           (createMessageFingerprint hash now toP (.str b) "text") true now ∧
       (sendTextOnce cfg hash now tr toP b s outs).state.outboundCache =
         cacheSet s.outboundCache (msgKeyText hash toP b)
           ⟨createMessageFingerprint hash now toP (.str b) "text", now, tr,
            false⟩ now) ∧
    (∀ (cfg : Config) (hash : String → String) (now : Nat)
       (tr toP b : String) (s : SysState) (outs : List HttpOutcome)
       (est : Option Nat),
       (sendTextOnce cfg hash now tr toP b s outs).result =
           .httpError est →
       (sendTextOnce cfg hash now tr toP b s outs).state.sentCache =
         s.sentCache ∧
       (sendTextOnce cfg hash now tr toP b s outs).state.outboundCache =
         cacheSet s.outboundCache (msgKeyText hash toP b)
           ⟨createMessageFingerprint hash now toP (.str b) "text", now, tr,
            true⟩ now) ∧
    (∀ (cfg : Config) (hash : String → String) (now : Nat)
       (tr toP m f : String) (s : SysState) (outs : List HttpOutcome)
       (st : Nat),
       (sendDocumentJsonOnce cfg hash now tr toP m f s outs).result =
           .success st →
       (sendDocumentJsonOnce cfg hash now tr toP m f s outs).state.sentCache =
         cacheSet s.sentCache
           (createMessageFingerprint hash now toP (.obj [("media", m)])
             "document") true now ∧
       (sendDocumentJsonOnce cfg hash now tr toP m f s
           outs).state.outboundCache =
         cacheSet s.outboundCache (msgKeyDoc toP m)
           ⟨createMessageFingerprint hash now toP (.obj [("media", m)])
             "document", now, tr, false⟩ now) ∧
    (∀ (cfg : Config) (hash : String → String) (now : Nat)
       (tr toP m f : String) (s : SysState) (outs : List HttpOutcome)
       (est : Option Nat),
       (sendDocumentJsonOnce cfg hash now tr toP m f s outs).result =
           .httpError est →
       (sendDocumentJsonOnce cfg hash now tr toP m f s outs).state.sentCache =
         s.sentCache ∧
       (sendDocumentJsonOnce cfg hash now tr toP m f s
           outs).state.outboundCache =
         cacheSet s.outboundCache (msgKeyDoc toP m)
           ⟨createMessageFingerprint hash now toP (.obj [("media", m)])
             "document", now, tr, true⟩ now) ∧
    (∀ (cfg : Config) (hash : String → String) (now : Nat)
       (tr toP m f : String) (s : SysState) (outs : List HttpOutcome)
       (st : Nat),
       (sendDocumentMultipartOnce cfg hash now tr toP m f s outs).result =
           .success st →
       (sendDocumentMultipartOnce cfg hash now tr toP m f s
           outs).state.sentCache =
         cacheSet s.sentCache
           (createMessageFingerprint hash now toP (.obj [("media", m)])
             "document") true now ∧
       (sendDocumentMultipartOnce cfg hash now tr toP m f s
           outs).state.outboundCache = s.outboundCache) ∧
    (∀ (cfg : Config) (hash : String → String) (now : Nat)
       (tr toP m f : String) (s : SysState) (outs : List HttpOutcome)
       (est : Option Nat),
       (sendDocumentMultipartOnce cfg hash now tr toP m f s outs).result =
           .httpError est →
       (sendDocumentMultipartOnce cfg hash now tr toP m f s outs).state =
         s) := by
  refine ⟨?_, ?_, ?_, ?_, ?_, ?_⟩
  · intro cfg hash now tr toP b s outs st hr
    rw [sendTextOnce_success_eq cfg hash now tr toP b s outs st hr]
    exact ⟨rfl, rfl⟩
  · intro cfg hash now tr toP b s outs est hr
    rw [sendTextOnce_httpError_eq cfg hash now tr toP b s outs est hr]
    exact ⟨rfl, rfl⟩
  · intro cfg hash now tr toP m f s outs st hr
    rw [sendDocumentJsonOnce_success_eq cfg hash now tr toP m f s outs st hr]
    exact ⟨rfl, rfl⟩
  · intro cfg hash now tr toP m f s outs est hr
    rw [sendDocumentJsonOnce_httpError_eq cfg hash now tr toP m f s outs est
      hr]
    exact ⟨rfl, rfl⟩
  · intro cfg hash now tr toP m f s outs st hr
    rw [sendDocumentMultipartOnce_success_eq cfg hash now tr toP m f s outs
      st hr]
    exact ⟨rfl, rfl⟩
  · intro cfg hash now tr toP m f s outs est hr
    rw [sendDocumentMultipartOnce_httpError_eq cfg hash now tr toP m f s outs
      est hr]

/-- Witness for `transport_cache_ledger_frame`: the text-success clause
applied at a concrete successful send. -/
theorem transport_cache_ledger_frame_witness :
    (sendTextOnce testCfg strRev 0 "t1" "911234567890" "hello" { }
      [.ok 200]).state.sentCache =
      cacheSet ({ } : SysState).sentCache
        (createMessageFingerprint strRev 0 "911234567890" (.str "hello")
          "text") true 0 ∧
    (sendTextOnce testCfg strRev 0 "t1" "911234567890" "hello" { }
      [.ok 200]).state.outboundCache =
      cacheSet ({ } : SysState).outboundCache
        (msgKeyText strRev "911234567890" "hello")
        ⟨createMessageFingerprint strRev 0 "911234567890" (.str "hello")
          "text", 0, "t1", false⟩ 0 :=
  transport_cache_ledger_frame.1 testCfg strRev 0 "t1" "911234567890"
    "hello" { } [.ok 200] 200 (by decide)

/-! ## Claim C8 -/

/-- Claim C8: every retry job reaches a terminal state after a bounded
number of processing steps.  Over any sequence of worker ticks (with
arbitrary gateway outcomes), a job with id `jid` is selected for
processing at most `max 1 (maxAttempts - attempts)` times — each
processing step either deletes the job (success, idempotency hit,
unknown type, exhaustion) or strictly increments its attempt counter,
so no job is retried indefinitely. -/
theorem retry_jobs_bounded_processing (cfg : Config)
    (hash : String → String) (ticks : List TickInput) (s : SysState)
    (jid : String) (hnd : (s.jobs.map (fun j => j.id)).Nodup) :
    processedCount (runTicks cfg hash ticks s).2 jid ≤
      jobBudget (findJob s.jobs jid) :=
  runTicks_processedCount_le cfg hash ticks s jid hnd

/-- Witness for `retry_jobs_bounded_processing` at a concrete
always-failing doc job over five ticks. -/
theorem retry_jobs_bounded_processing_witness :
    processedCount
      (runTicks testCfg strRev
        [⟨0, "a", [.err (some 500), .err (some 500), .err (some 500),
           .err (some 500)]⟩,
         ⟨2000, "b", [.err (some 500), .err (some 500), .err (some 500),
           .err (some 500)]⟩,
         ⟨4000, "c", [.err (some 500), .err (some 500), .err (some 500),
           .err (some 500)]⟩]
        { jobs := [{ id := "j1", type := "doc",
                     toPhone := "911234567890", media := "M1",
                     maxAttempts := 3 }] }).2 "j1" ≤
      jobBudget (findJob
        [{ id := "j1", type := "doc", toPhone := "911234567890",
           media := "M1", maxAttempts := 3 }] "j1") :=
  retry_jobs_bounded_processing testCfg strRev
    [⟨0, "a", [.err (some 500), .err (some 500), .err (some 500),
       .err (some 500)]⟩,
     ⟨2000, "b", [.err (some 500), .err (some 500), .err (some 500),
       .err (some 500)]⟩,
     ⟨4000, "c", [.err (some 500), .err (some 500), .err (some 500),
       .err (some 500)]⟩]
    { jobs := [{ id := "j1", type := "doc", toPhone := "911234567890",
                 media := "M1", maxAttempts := 3 }] } "j1" (by decide)

/-! ## Claim C9 -/

/-- Claim C9: the fingerprint is a deterministic function of exactly
(normalized recipient, content, kind, minute bucket) — two calls with
the same recipient, content and kind in the same minute bucket agree —
and it is independent of every secret: `createMessageFingerprint` is
definitially a function of those four values only, and an entire
`sendTextOnce` run under a different `SEND_API_KEY` yields the same
result, the same state (hence the same cached fingerprints), and the
same network calls up to the Authorization header. -/
theorem fingerprint_deterministic_and_secret_free :
    (∀ (hash : String → String) (toP : String) (c : JSContent)
       (ty : String) (n1 n2 : Nat),
       n1 / 60000 = n2 / 60000 →
       createMessageFingerprint hash n1 toP c ty =
         createMessageFingerprint hash n2 toP c ty) ∧
    (∀ (hash : String → String) (n : Nat) (toP : String) (c : JSContent)
       (ty : String),
       createMessageFingerprint hash n toP c ty =
         strTake (hash (fingerprintPayload (normalizePhone toP)
           (contentJsonFor ty c) ty (n / 60000))) 12) ∧
    (∀ (cfg : Config) (k : String) (hash : String → String) (now : Nat)
       (tr toP b : String) (s : SysState) (outs : List HttpOutcome),
       (sendTextOnce { cfg with sendApiKey := k } hash now tr toP b s
           outs).result =
         (sendTextOnce cfg hash now tr toP b s outs).result ∧
       (sendTextOnce { cfg with sendApiKey := k } hash now tr toP b s
           outs).state =
         (sendTextOnce cfg hash now tr toP b s outs).state ∧
       (sendTextOnce { cfg with sendApiKey := k } hash now tr toP b s
           outs).calls.map (fun c => (c.url, c.requestId)) =
         (sendTextOnce cfg hash now tr toP b s outs).calls.map
           (fun c => (c.url, c.requestId))) := by
  refine ⟨?_, ?_, ?_⟩
  · intro hash toP c ty n1 n2 h
    unfold createMessageFingerprint
    rw [h]
  · intro hash n toP c ty
    rfl
  · intro cfg k hash now tr toP b s outs
    simp only [sendTextOnce, checkRateLimit]
    by_cases h1 : (cacheGet cfg.sentCacheTtlMs now s.sentCache
        (createMessageFingerprint hash now toP (.str b) "text")).isSome
    · simp only [h1, if_true]
      refine ⟨?_, ?_, ?_⟩ <;> trivial
    · simp only [h1, Bool.false_eq_true, if_false]
      by_cases h2 : cfg.rateLimitTps ≤
          (cacheGet 1000 now s.rateWindow (now / 1000)).getD 0
      · simp only [if_pos h2]
        refine ⟨?_, ?_, ?_⟩ <;> trivial
      · simp only [if_neg h2]
        cases houts : outs.headD (HttpOutcome.err none) <;>
          (refine ⟨?_, ?_, ?_⟩ <;> trivial)

/-- Witness for `fingerprint_deterministic_and_secret_free`: the
determinism clause applied inside minute bucket 0. -/
theorem fingerprint_deterministic_and_secret_free_witness :
    createMessageFingerprint strRev 1000 "911234567890" (.str "hello")
      "text" =
    createMessageFingerprint strRev 59999 "911234567890" (.str "hello")
      "text" :=
  fingerprint_deterministic_and_secret_free.1 strRev "911234567890"
    (.str "hello") "text" 1000 59999 (by decide)

/-! ## Supporting lemmas for the worker-path claims -/

lemma sendDocumentJsonOnce_result_err (cfg : Config)
    (hash : String → String) (now : Nat) (tr toP m f : String)
    (s : SysState) (outs : List HttpOutcome) (st : Option Nat)
    (hmiss : cacheGet cfg.sentCacheTtlMs now s.sentCache
      (createMessageFingerprint hash now toP (.obj [("media", m)])
        "document") = none)
    (hrate : ¬ cfg.rateLimitTps ≤
      (cacheGet 1000 now s.rateWindow (now / 1000)).getD 0)
    (houts : outs.headD (.err none) = .err st) :
    (sendDocumentJsonOnce cfg hash now tr toP m f s outs).result =
      .httpError st := by
  simp only [sendDocumentJsonOnce, checkRateLimit, hmiss,
    Option.isSome_none, Bool.false_eq_true, if_false, if_neg hrate]
  cases houts2 : outs.headD (HttpOutcome.err none) with
  | ok st0 => rw [houts2] at houts; cases houts
  | err st0 =>
    rw [houts2] at houts
    injection houts with h
    subst h
    rfl

/-- The fatal 401/403 short-circuit of `sendDocumentRobust`: when the
first JSON attempt is actually made and rejected with a fatal status,
the whole robust send stops after that single network call — no
multipart fallback, no second iteration — and rethrows the error. -/
lemma sendDocumentRobust_fatal_short (cfg : Config)
    (hash : String → String) (now : Nat) (tr toP m f : String)
    (s : SysState) (outs : List HttpOutcome) (st : Nat)
    (hfatal : isFatalStatus (some st) = true)
    (hmiss : cacheGet cfg.sentCacheTtlMs now s.sentCache
      (createMessageFingerprint hash now toP (.obj [("media", m)])
        "document") = none)
    (hrate : ¬ cfg.rateLimitTps ≤
      (cacheGet 1000 now s.rateWindow (now / 1000)).getD 0)
    (houts : outs.headD (.err none) = .err (some st)) :
    (sendDocumentRobust cfg hash now tr toP m f s outs).result =
      .httpError (some st) ∧
    (sendDocumentRobust cfg hash now tr toP m f s outs).calls.length =
      1 := by
  have hres := sendDocumentJsonOnce_result_err cfg hash now tr toP m f s
    outs (some st) hmiss hrate houts
  have heq := sendDocumentJsonOnce_httpError_eq cfg hash now tr toP m f s
    outs (some st) hres
  simp only [sendDocumentRobust, sendDocumentRobustAux]
  rw [heq]
  simp [hfatal]

lemma processJob_doc_throw_reschedules (cfg : Config)
    (hash : String → String) (now : Nat) (tr : String) (job : Job)
    (s : SysState) (outs : List HttpOutcome)
    (htype : job.type = "doc") (hfp : job.fingerprint = none)
    (hmiss : cacheGet cfg.sentCacheTtlMs now s.sentCache
      (createMessageFingerprint hash now job.toPhone
        (.obj [("media", job.media)]) "document") = none)
    (hthrow : (sendDocumentRobust cfg hash now tr job.toPhone job.media
      job.filename
      { s with jobs := updateJob s.jobs { job with locked := true } }
      outs).result.isThrow = true)
    (hlt : job.attempts + 1 < job.maxAttempts)
    (hpresent : (findJob s.jobs job.id).isSome) :
    (processJob cfg hash now tr job s outs).2 =
      (sendDocumentRobust cfg hash now tr job.toPhone job.media
        job.filename
        { s with jobs := updateJob s.jobs { job with locked := true } }
        outs).calls ∧
    findJob (processJob cfg hash now tr job s outs).1.jobs job.id =
      some { job with
          attempts := job.attempts + 1, locked := false,
          nextAttemptAt := now + cfg.jobRetryBaseMs * 2 ^ job.attempts } :=
    by
  have hjfp : jobFingerprint hash now job =
      createMessageFingerprint hash now job.toPhone
        (.obj [("media", job.media)]) "document" := by
    simp [jobFingerprint, hfp, jsTruthy, htype]
  simp only [processJob, hjfp]
  have hmiss' : cacheGet cfg.sentCacheTtlMs now
      ({ s with
          jobs := updateJob s.jobs { job with locked := true } } :
        SysState).sentCache
      (createMessageFingerprint hash now job.toPhone
        (.obj [("media", job.media)]) "document") = none := hmiss
  rw [hmiss']
  have hcond : (job.type = "doc") = True := by simp [htype]
  simp only [Option.isSome_none, Bool.false_eq_true, if_false, hcond,
    if_true, hthrow, jobCatch]
  have hnle : ¬ job.maxAttempts ≤ job.attempts + 1 := by omega
  simp only [if_neg hnle]
  refine ⟨by trivial, ?_⟩
  have hjobs := sendDocumentRobust_jobs cfg hash now tr job.toPhone
    job.media job.filename
    { s with jobs := updateJob s.jobs { job with locked := true } } outs
  rw [hjobs]
  have hsome : (findJob (updateJob s.jobs { job with locked := true })
      job.id).isSome :=
    findJob_isSome_updateJob s.jobs { job with locked := true } job.id
      hpresent
  have hsimp : (job.attempts + 1 - 1) = job.attempts := by omega
  rw [hsimp]
  exact findJob_updateJob_self _ _ hsome

lemma processJob_text_throw_reschedules (cfg : Config)
    (hash : String → String) (now : Nat) (tr : String) (job : Job)
    (s : SysState) (outs : List HttpOutcome)
    (htype : job.type = "text") (hfp : job.fingerprint = none)
    (hmiss : cacheGet cfg.sentCacheTtlMs now s.sentCache
      (createMessageFingerprint hash now job.toPhone (.str job.body)
        "text") = none)
    (hthrow : (sendTextOnce cfg hash now tr job.toPhone job.body
      { s with jobs := updateJob s.jobs { job with locked := true } }
      outs).result.isThrow = true)
    (hlt : job.attempts + 1 < job.maxAttempts)
    (hpresent : (findJob s.jobs job.id).isSome) :
    (processJob cfg hash now tr job s outs).2 =
      (sendTextOnce cfg hash now tr job.toPhone job.body
        { s with jobs := updateJob s.jobs { job with locked := true } }
        outs).calls ∧
    findJob (processJob cfg hash now tr job s outs).1.jobs job.id =
      some { job with
          attempts := job.attempts + 1, locked := false,
          nextAttemptAt := now + cfg.jobRetryBaseMs * 2 ^ job.attempts } :=
    by
  have hjfp : jobFingerprint hash now job =
      createMessageFingerprint hash now job.toPhone (.str job.body)
        "text" := by
    simp [jobFingerprint, hfp, jsTruthy, htype]
  have hnotdoc : ¬ job.type = "doc" := by rw [htype]; decide
  simp only [processJob, hjfp]
  have hmiss' : cacheGet cfg.sentCacheTtlMs now
      ({ s with
          jobs := updateJob s.jobs { job with locked := true } } :
        SysState).sentCache
      (createMessageFingerprint hash now job.toPhone (.str job.body)
        "text") = none := hmiss
  rw [hmiss']
  have hcond1 : (job.type = "doc") = False := by simp [htype]
  have hcond2 : (job.type = "text") = True := by simp [htype]
  simp only [Option.isSome_none, Bool.false_eq_true, if_false, hcond1,
    hcond2, if_true, hthrow, jobCatch]
  have hnle : ¬ job.maxAttempts ≤ job.attempts + 1 := by omega
  simp only [if_neg hnle]
  refine ⟨by trivial, ?_⟩
  have hjobs := sendTextOnce_jobs cfg hash now tr job.toPhone job.body
    { s with jobs := updateJob s.jobs { job with locked := true } } outs
  rw [hjobs]
  have hsome : (findJob (updateJob s.jobs { job with locked := true })
      job.id).isSome :=
    findJob_isSome_updateJob s.jobs { job with locked := true } job.id
      hpresent
  have hsimp : (job.attempts + 1 - 1) = job.attempts := by omega
  rw [hsimp]
  exact findJob_updateJob_self _ _ hsome

lemma sendTextOnce_result_err (cfg : Config) (hash : String → String)
    (now : Nat) (tr toP b : String) (s : SysState)
    (outs : List HttpOutcome) (st : Option Nat)
    (hmiss : cacheGet cfg.sentCacheTtlMs now s.sentCache
      (createMessageFingerprint hash now toP (.str b) "text") = none)
    (hrate : ¬ cfg.rateLimitTps ≤
      (cacheGet 1000 now s.rateWindow (now / 1000)).getD 0)
    (houts : outs.headD (.err none) = .err st) :
    (sendTextOnce cfg hash now tr toP b s outs).result = .httpError st := by
  simp only [sendTextOnce, checkRateLimit, hmiss, Option.isSome_none,
    Bool.false_eq_true, if_false, if_neg hrate]
  cases houts2 : outs.headD (HttpOutcome.err none) with
  | ok st0 => rw [houts2] at houts; cases houts
  | err st0 =>
    rw [houts2] at houts
    injection houts with h
    subst h
    rfl

/-! ## Claim C2 -/

/-- Claim C2 counterexample: a doc job whose first delivery attempt is
rejected with HTTP 401 is NOT removed from the jobs map — the fatal
error does make exactly one network call (no multipart fallback), but
the worker's catch-all handler then increments `attempts` and
reschedules the job with backoff instead of deleting it. -/
theorem fatal_error_job_not_removed_cex :
    (workerTick testCfg strRev 0 "t"
      { jobs := [{ id := "j1", type := "doc", toPhone := "911234567890",
                   media := "M1", maxAttempts := 2 }] }
      [.err (some 401)]).2.1.length = 1 ∧
    (workerTick testCfg strRev 0 "t"
      { jobs := [{ id := "j1", type := "doc", toPhone := "911234567890",
                   media := "M1", maxAttempts := 2 }] }
      [.err (some 401)]).1.jobs =
      [{ id := "j1", type := "doc", toPhone := "911234567890",
         media := "M1", attempts := 1, maxAttempts := 2,
         nextAttemptAt := 2000 }] := by
  decide

/-- Claim C2 (amended): a 401/403 response is fatal within one robust
delivery attempt — no multipart fallback is tried, no further encoding
retry happens, exactly one network call is made and the error
propagates.  However, the retry worker does not remove the job
immediately: the propagated fatal error lands in the catch-all handler,
which increments `attempts` and keeps the job rescheduled with backoff
while `attempts + 1 < maxAttempts` (removal happens only through
attempt exhaustion). -/
theorem fatal_short_circuit_and_worker_reschedule :
    (∀ (cfg : Config) (hash : String → String) (now : Nat)
       (tr toP m f : String) (s : SysState) (outs : List HttpOutcome)
       (st : Nat),
       isFatalStatus (some st) = true →
       cacheGet cfg.sentCacheTtlMs now s.sentCache
         (createMessageFingerprint hash now toP (.obj [("media", m)])
           "document") = none →
       ¬ cfg.rateLimitTps ≤
         (cacheGet 1000 now s.rateWindow (now / 1000)).getD 0 →
       outs.headD (.err none) = .err (some st) →
       (sendDocumentRobust cfg hash now tr toP m f s outs).result =
         .httpError (some st) ∧
       (sendDocumentRobust cfg hash now tr toP m f s outs).calls.length =
         1) ∧
    (∀ (cfg : Config) (hash : String → String) (now : Nat) (tr : String)
       (job : Job) (s : SysState) (outs : List HttpOutcome) (st : Nat),
       job.type = "doc" → job.fingerprint = none →
       isFatalStatus (some st) = true →
       cacheGet cfg.sentCacheTtlMs now s.sentCache
         (createMessageFingerprint hash now job.toPhone
           (.obj [("media", job.media)]) "document") = none →
       ¬ cfg.rateLimitTps ≤
         (cacheGet 1000 now s.rateWindow (now / 1000)).getD 0 →
       outs.headD (.err none) = .err (some st) →
       job.attempts + 1 < job.maxAttempts →
       (findJob s.jobs job.id).isSome →
       findJob (processJob cfg hash now tr job s outs).1.jobs job.id =
         some { job with
             attempts := job.attempts + 1, locked := false,
             nextAttemptAt :=
               now + cfg.jobRetryBaseMs * 2 ^ job.attempts }) := by
  constructor
  · intro cfg hash now tr toP m f s outs st hfatal hmiss hrate houts
    exact sendDocumentRobust_fatal_short cfg hash now tr toP m f s outs st
      hfatal hmiss hrate houts
  · intro cfg hash now tr job s outs st htype hfp hfatal hmiss hrate houts
      hlt hpresent
    have hshort := sendDocumentRobust_fatal_short cfg hash now tr
      job.toPhone job.media job.filename
      { s with jobs := updateJob s.jobs { job with locked := true } }
      outs st hfatal hmiss hrate houts
    have hthrow : (sendDocumentRobust cfg hash now tr job.toPhone
        job.media job.filename
        { s with jobs := updateJob s.jobs { job with locked := true } }
        outs).result.isThrow = true := by
      rw [hshort.1]
      rfl
    exact (processJob_doc_throw_reschedules cfg hash now tr job s outs
      htype hfp hmiss hthrow hlt hpresent).2

/-- Witness for `fatal_short_circuit_and_worker_reschedule`: the worker
clause applied at a concrete doc job failing with 401. -/
theorem fatal_short_circuit_and_worker_reschedule_witness :
    findJob (processJob testCfg strRev 0 "t"
      { id := "j1", type := "doc", toPhone := "911234567890",
        media := "M1", maxAttempts := 2 }
      { jobs := [{ id := "j1", type := "doc", toPhone := "911234567890",
                   media := "M1", maxAttempts := 2 }] }
      [.err (some 401)]).1.jobs "j1" =
      some { id := "j1", type := "doc", toPhone := "911234567890",
             media := "M1", attempts := 1, maxAttempts := 2,
             nextAttemptAt := 2000 } :=
  fatal_short_circuit_and_worker_reschedule.2 testCfg strRev 0 "t"
    { id := "j1", type := "doc", toPhone := "911234567890",
      media := "M1", maxAttempts := 2 }
    { jobs := [{ id := "j1", type := "doc", toPhone := "911234567890",
                 media := "M1", maxAttempts := 2 }] }
    [.err (some 401)] 401 rfl rfl (by decide) (by decide) (by decide) rfl
    (by decide) (by decide)

/-! ## Claim C3 -/

/-- Claim C3 counterexample: two identical sends 2 ms apart — well
inside the 30 s idempotency TTL — that straddle a minute-bucket
boundary (59999 ms and 60001 ms) produce different fingerprints, so the
second call is NOT skipped: two Transport Adapter network invocations
occur within the TTL. -/
theorem duplicate_send_across_minute_bucket_cex :
    (sendTextOnce testCfg strRev 59999 "t1" "911234567890" "hello" { }
      [.ok 200]).result = .success 200 ∧
    (sendTextOnce testCfg strRev 59999 "t1" "911234567890" "hello" { }
      [.ok 200]).calls.length = 1 ∧
    60001 < 59999 + testCfg.sentCacheTtlMs ∧
    (sendTextOnce testCfg strRev 60001 "t2" "911234567890" "hello"
      (sendTextOnce testCfg strRev 59999 "t1" "911234567890" "hello" { }
        [.ok 200]).state [.ok 200]).calls.length = 1 := by
  decide

/-- Claim C3 (amended): within a single minute bucket the idempotency
cache does deduplicate: if a first send succeeds at `t1`, a second call
with the same recipient/content/kind at `t2` (same minute bucket,
before the sent-cache entry expires) is skipped — it returns the no-op
`{skipped: true, fingerprint}`, performs zero network calls and leaves
the state unchanged.  The retry worker likewise deletes a job whose
fingerprint is already cached, without sending.  Across a minute-bucket
boundary the fingerprints differ and a second network invocation occurs
even inside the TTL (see the counterexample). -/
theorem idempotent_duplicate_skip :
    (∀ (cfg : Config) (hash : String → String) (t1 t2 : Nat)
       (tr1 tr2 toP b : String) (s : SysState)
       (outs1 outs2 : List HttpOutcome) (st : Nat),
       t1 / 60000 = t2 / 60000 →
       t2 < t1 + cfg.sentCacheTtlMs →
       (sendTextOnce cfg hash t1 tr1 toP b s outs1).result =
           .success st →
       sendTextOnce cfg hash t2 tr2 toP b
           (sendTextOnce cfg hash t1 tr1 toP b s outs1).state outs2 =
         ⟨.skipped (createMessageFingerprint hash t2 toP (.str b)
             "text"), [],
          (sendTextOnce cfg hash t1 tr1 toP b s outs1).state, outs2⟩) ∧
    (∀ (cfg : Config) (hash : String → String) (now : Nat) (tr : String)
       (job : Job) (s : SysState) (outs : List HttpOutcome) (v : Bool),
       cacheGet cfg.sentCacheTtlMs now s.sentCache
         (jobFingerprint hash now job) = some v →
       (processJob cfg hash now tr job s outs).2 = [] ∧
       findJob (processJob cfg hash now tr job s outs).1.jobs job.id =
         none) := by
  constructor
  · intro cfg hash t1 t2 tr1 tr2 toP b s outs1 outs2 st hb htt hr
    have heq := sendTextOnce_success_eq cfg hash t1 tr1 toP b s outs1 st hr
    have hfp : createMessageFingerprint hash t2 toP (.str b) "text" =
        createMessageFingerprint hash t1 toP (.str b) "text" := by
      unfold createMessageFingerprint
      rw [hb]
    apply sendTextOnce_skipped_eq
    rw [heq, hfp]
    simp [cacheGet, cacheSet, htt]
  · intro cfg hash now tr job s outs v hhit
    have hhit0 : cacheGet cfg.sentCacheTtlMs now
        ({ s with
            jobs := updateJob s.jobs { job with locked := true } } :
          SysState).sentCache (jobFingerprint hash now job) = some v :=
      hhit
    constructor
    · simp only [processJob, hhit0, Option.isSome_some, if_true]
    · simp only [processJob, hhit0, Option.isSome_some, if_true]
      exact findJob_deleteJob_self _ _

/-- Witness for `idempotent_duplicate_skip`: the same-bucket skip
clause applied at two concrete sends 1 s apart in minute 0. -/
theorem idempotent_duplicate_skip_witness :
    sendTextOnce testCfg strRev 1000 "t2" "911234567890" "hello"
        (sendTextOnce testCfg strRev 0 "t1" "911234567890" "hello" { }
          [.ok 200]).state [.ok 200] =
      ⟨.skipped (createMessageFingerprint strRev 1000 "911234567890"
          (.str "hello") "text"), [],
       (sendTextOnce testCfg strRev 0 "t1" "911234567890" "hello" { }
         [.ok 200]).state, [.ok 200]⟩ :=
  idempotent_duplicate_skip.1 testCfg strRev 0 1000 "t1" "t2"
    "911234567890" "hello" { } [.ok 200] [.ok 200] 200 (by decide)
    (by decide) (by decide)

/-! ## Claim C4 -/

/-- Claim C4 counterexample: a text retry job blocked by the exhausted
local rate budget makes zero network calls, yet its `attempts` counter
IS incremented (0 → 1) and counted against `maxAttempts`: the rate-limit
throw is caught by the worker's catch-all handler like any delivery
failure. -/
theorem rate_limited_attempt_counted_cex :
    (processJob testCfg strRev 100 "t"
      { id := "j1", type := "text", toPhone := "911234567890",
        body := "hi", maxAttempts := 2 }
      { rateWindow := [(0, 5, 0)],
        jobs := [{ id := "j1", type := "text",
                   toPhone := "911234567890", body := "hi",
                   maxAttempts := 2 }] } [.ok 200]).2 = [] ∧
    findJob (processJob testCfg strRev 100 "t"
      { id := "j1", type := "text", toPhone := "911234567890",
        body := "hi", maxAttempts := 2 }
      { rateWindow := [(0, 5, 0)],
        jobs := [{ id := "j1", type := "text",
                   toPhone := "911234567890", body := "hi",
                   maxAttempts := 2 }] } [.ok 200]).1.jobs "j1" =
      some { id := "j1", type := "text", toPhone := "911234567890",
             body := "hi", attempts := 1, maxAttempts := 2,
             nextAttemptAt := 2100 } := by
  decide

/-- Claim C4 (amended): when the local rate budget is exhausted, a text
job's attempt makes no network call — `sendTextOnce` throws before the
network attempt — but the worker's catch-all handler nevertheless
increments the job's `attempts` counter (counting it against
`maxAttempts`) and reschedules with backoff while
`attempts + 1 < maxAttempts`. -/
theorem rate_limit_failure_counts_attempt :
    ∀ (cfg : Config) (hash : String → String) (now : Nat) (tr : String)
      (job : Job) (s : SysState) (outs : List HttpOutcome),
      job.type = "text" → job.fingerprint = none →
      cacheGet cfg.sentCacheTtlMs now s.sentCache
        (createMessageFingerprint hash now job.toPhone (.str job.body)
          "text") = none →
      cfg.rateLimitTps ≤
        (cacheGet 1000 now s.rateWindow (now / 1000)).getD 0 →
      job.attempts + 1 < job.maxAttempts →
      (findJob s.jobs job.id).isSome →
      (processJob cfg hash now tr job s outs).2 = [] ∧
      findJob (processJob cfg hash now tr job s outs).1.jobs job.id =
        some { job with
            attempts := job.attempts + 1, locked := false,
            nextAttemptAt :=
              now + cfg.jobRetryBaseMs * 2 ^ job.attempts } := by
  intro cfg hash now tr job s outs htype hfp hmiss hrate hlt hpresent
  have h1 : ¬ (cacheGet cfg.sentCacheTtlMs now
      ({ s with
          jobs := updateJob s.jobs { job with locked := true } } :
        SysState).sentCache
      (createMessageFingerprint hash now job.toPhone (.str job.body)
        "text")).isSome := by
    have : cacheGet cfg.sentCacheTtlMs now
        ({ s with
            jobs := updateJob s.jobs { job with locked := true } } :
          SysState).sentCache
        (createMessageFingerprint hash now job.toPhone (.str job.body)
          "text") = none := hmiss
    rw [this]
    simp
  have heq := sendTextOnce_rateLimited_eq cfg hash now tr job.toPhone
    job.body
    { s with jobs := updateJob s.jobs { job with locked := true } }
    outs h1 hrate
  have hthrow : (sendTextOnce cfg hash now tr job.toPhone job.body
      { s with jobs := updateJob s.jobs { job with locked := true } }
      outs).result.isThrow = true := by
    rw [heq]
    rfl
  have hmain := processJob_text_throw_reschedules cfg hash now tr job s
    outs htype hfp hmiss hthrow hlt hpresent
  refine ⟨?_, hmain.2⟩
  rw [hmain.1, heq]

/-- Witness for `rate_limit_failure_counts_attempt` at a concrete
budget-exhausted state. -/
theorem rate_limit_failure_counts_attempt_witness :
    (processJob testCfg strRev 100 "t2"
      { id := "j2", type := "text", toPhone := "911234567890",
        body := "yo", maxAttempts := 3 }
      { rateWindow := [(0, 5, 0)],
        jobs := [{ id := "j2", type := "text",
                   toPhone := "911234567890", body := "yo",
                   maxAttempts := 3 }] } []).2 = [] ∧
    findJob (processJob testCfg strRev 100 "t2"
      { id := "j2", type := "text", toPhone := "911234567890",
        body := "yo", maxAttempts := 3 }
      { rateWindow := [(0, 5, 0)],
        jobs := [{ id := "j2", type := "text",
                   toPhone := "911234567890", body := "yo",
                   maxAttempts := 3 }] } []).1.jobs "j2" =
      some { id := "j2", type := "text", toPhone := "911234567890",
             body := "yo", attempts := 1, maxAttempts := 3,
             nextAttemptAt := 2100 } :=
  rate_limit_failure_counts_attempt testCfg strRev 100 "t2"
    { id := "j2", type := "text", toPhone := "911234567890",
      body := "yo", maxAttempts := 3 }
    { rateWindow := [(0, 5, 0)],
      jobs := [{ id := "j2", type := "text", toPhone := "911234567890",
                 body := "yo", maxAttempts := 3 }] } [] rfl rfl
    (by decide) (by decide) (by decide) (by decide)

/-! ## Claim C7 -/

/-- Gateway oracle for one doc-job worker attempt in which every post is
rejected with HTTP 500 (JSON + multipart, two robust iterations). -/
def err500x4 : List HttpOutcome :=
  [.err (some 500), .err (some 500), .err (some 500), .err (some 500)]

/-- The scenario job: document retry job with `maxAttempts = 3`. -/
def docJob3 : Job :=
  { id := "j1", type := "doc", toPhone := "911234567890", media := "M1",
    filename := "f.pdf", maxAttempts := 3 }

/-- Worker ticks every 2 s from t=0 to t=8000, gateway always 500. -/
def scenarioTicks : List TickInput :=
  [⟨0, "a", err500x4⟩, ⟨2000, "b", err500x4⟩, ⟨4000, "c", err500x4⟩,
   ⟨6000, "d", err500x4⟩, ⟨8000, "e", err500x4⟩]

/-- Claim C7 counterexample: in the `maxAttempts = 3`, `base = 2000 ms`
all-500 document scenario, NO attempt occurs at t≈4000: after the
second failure the backoff is `2000 * 2^1 = 4000 ms` so the job is
rescheduled to t=6000, and the t=4000 tick selects nothing and makes no
network calls.  The attempts occur at t=0, t=2000 and t=6000. -/
theorem no_attempt_at_4000_cex :
    ((runTicks testCfg strRev scenarioTicks { jobs := [docJob3] }).2.map
       (fun e => (e.1, e.2.length))) =
      [(some "j1", 4), (some "j1", 4), (none, 0), (some "j1", 4),
       (none, 0)] ∧
    ((runTicks testCfg strRev [⟨0, "a", err500x4⟩, ⟨2000, "b", err500x4⟩]
        { jobs := [docJob3] }).1.jobs.map (fun j => j.nextAttemptAt)) =
      [6000] := by
  decide

/-- Claim C7 (amended): when a delivery attempt of a job fails
retryably and `attempts + 1 < maxAttempts`, the worker sets
`nextAttemptAt = now + base * 2^(attempts - 1)` (post-increment
`attempts`) and keeps the job unlocked; consequently, in the
`maxAttempts = 3`, `base = 2000 ms` all-500 document scenario the
attempts occur at t≈0, t≈2000 and t≈6000 (not t≈4000), after which the
job is removed and no fourth attempt occurs. -/
theorem backoff_formula_and_schedule :
    (∀ (cfg : Config) (hash : String → String) (now : Nat) (tr : String)
       (job : Job) (s : SysState) (outs : List HttpOutcome)
       (est : Option Nat),
       job.type = "text" → job.fingerprint = none →
       cacheGet cfg.sentCacheTtlMs now s.sentCache
         (createMessageFingerprint hash now job.toPhone (.str job.body)
           "text") = none →
       ¬ cfg.rateLimitTps ≤
         (cacheGet 1000 now s.rateWindow (now / 1000)).getD 0 →
       outs.headD (.err none) = .err est →
       job.attempts + 1 < job.maxAttempts →
       (findJob s.jobs job.id).isSome →
       findJob (processJob cfg hash now tr job s outs).1.jobs job.id =
         some { job with
             attempts := job.attempts + 1, locked := false,
             nextAttemptAt :=
               now + cfg.jobRetryBaseMs * 2 ^ job.attempts }) ∧
    ((runTicks testCfg strRev scenarioTicks { jobs := [docJob3] }).2.map
       (fun e => (e.1, e.2.length)) =
      [(some "j1", 4), (some "j1", 4), (none, 0), (some "j1", 4),
       (none, 0)] ∧
     (runTicks testCfg strRev scenarioTicks
       { jobs := [docJob3] }).1.jobs = []) := by
  constructor
  · intro cfg hash now tr job s outs est htype hfp hmiss hrate houts hlt
      hpresent
    have hres := sendTextOnce_result_err cfg hash now tr job.toPhone
      job.body
      { s with jobs := updateJob s.jobs { job with locked := true } }
      outs est hmiss hrate houts
    have hthrow : (sendTextOnce cfg hash now tr job.toPhone job.body
        { s with jobs := updateJob s.jobs { job with locked := true } }
        outs).result.isThrow = true := by
      rw [hres]
      rfl
    exact (processJob_text_throw_reschedules cfg hash now tr job s outs
      htype hfp hmiss hthrow hlt hpresent).2
  · exact ⟨by decide, by decide⟩

/-- Witness for `backoff_formula_and_schedule`: the reschedule clause
applied at a concrete text job failing with a 500. -/
theorem backoff_formula_and_schedule_witness :
    findJob (processJob testCfg strRev 50 "t3"
      { id := "j3", type := "text", toPhone := "911234567890",
        body := "hey", maxAttempts := 4 }
      { jobs := [{ id := "j3", type := "text",
                   toPhone := "911234567890", body := "hey",
                   maxAttempts := 4 }] } [.err (some 500)]).1.jobs "j3" =
      some { id := "j3", type := "text", toPhone := "911234567890",
             body := "hey", attempts := 1, maxAttempts := 4,
             nextAttemptAt := 2050 } :=
  backoff_formula_and_schedule.1 testCfg strRev 50 "t3"
    { id := "j3", type := "text", toPhone := "911234567890",
      body := "hey", maxAttempts := 4 }
    { jobs := [{ id := "j3", type := "text", toPhone := "911234567890",
                 body := "hey", maxAttempts := 4 }] } [.err (some 500)]
    (some 500) rfl rfl (by decide) (by decide) (by decide) (by decide)
    (by decide)

/-! ## Claim C6 -/

/-- Claim C6: phantom-echo suppression.  If a text delivery attempt to
`toP` with body `body` at time `T` was actually made (it returned
success or threw an HTTP error, both of which record an Outbound Ledger
entry keyed `out:<toP>:<hash(body)[0:12]>`), then an inbound webhook
message from the same sender carrying the same text, arriving at any
`now < T + PHANTOM_DELIVERY_WINDOW_MS`, is answered with
`ignored-phantom-delivery`: the handler leaves the state untouched
(including the dedupe cache) and triggers no business action — no
survey/button handling, no intro message, no document flow, no retry
job. -/
theorem phantom_echo_suppressed (cfg : Config) (hash : String → String)
    (T now : Nat) (tr toP body : String) (s : SysState)
    (outs : List HttpOutcome) (m : IncomingMessage)
    (senderPhone : Option String) (mediaIds : String → String)
    (st : Nat) (est : Option Nat)
    (hr : (sendTextOnce cfg hash T tr toP body s outs).result =
        .success st ∨
      (sendTextOnce cfg hash T tr toP body s outs).result =
        .httpError est)
    (hwin : now < T + cfg.phantomWindowMs)
    (hfromme : m.fromMe = false)
    (hsender : normalizePhone (m.sender.getD "") = some toP)
    (htext : m.text = some body) (hbody : body ≠ "") :
    webhookHandler cfg hash now true senderPhone mediaIds (.message m)
        (sendTextOnce cfg hash T tr toP body s outs).state =
      (.ignoredPhantom,
       (sendTextOnce cfg hash T tr toP body s outs).state, []) := by
  rcases hr with hr | hr
  · rw [sendTextOnce_success_eq cfg hash T tr toP body s outs st hr]
    simp [webhookHandler, hfromme, hsender, htext, jsTruthy, hbody,
      cacheGet, cacheSet, hwin]
  · rw [sendTextOnce_httpError_eq cfg hash T tr toP body s outs est hr]
    simp [webhookHandler, hfromme, hsender, htext, jsTruthy, hbody,
      cacheGet, cacheSet, hwin]

/-- Witness for `phantom_echo_suppressed`: a concrete successful text
send at t=0 whose echo arrives at t=1000. -/
theorem phantom_echo_suppressed_witness :
    webhookHandler testCfg strRev 1000 true none (fun _ => "M")
        (.message { messageId := some "m1",
                    sender := some "911234567890",
                    text := some "hello" })
        (sendTextOnce testCfg strRev 0 "t1" "911234567890" "hello" { }
          [.ok 200]).state =
      (.ignoredPhantom,
       (sendTextOnce testCfg strRev 0 "t1" "911234567890" "hello" { }
         [.ok 200]).state, []) :=
  phantom_echo_suppressed testCfg strRev 0 1000 "t1" "911234567890"
    "hello" { } [.ok 200]
    { messageId := some "m1", sender := some "911234567890",
      text := some "hello" } none (fun _ => "M") 200 none
    (Or.inl (by decide)) (by decide) rfl (by decide) rfl (by decide)

/-! ## Claim C10 -/

lemma removeFirstById_sublist (l : List QueueItem) (id : String) :
    (removeFirstById l id).Sublist l := by
  induction l with
  | nil => exact List.Sublist.refl _
  | cons m rest ih =>
    by_cases h : m.id = id
    · simp only [removeFirstById, if_pos h]
      exact List.sublist_cons_self _ _
    · simp only [removeFirstById, if_neg h]
      exact ih.cons₂ m

lemma removeFirstById_id_ne (l : List QueueItem) (id : String)
    (hnd : (l.map (fun q => q.id)).Nodup) :
    ∀ q ∈ removeFirstById l id, q.id ≠ id := by
  induction l with
  | nil => intro q hq; cases hq
  | cons m rest ih =>
    rw [List.map_cons, List.nodup_cons] at hnd
    by_cases h : m.id = id
    · simp only [removeFirstById, if_pos h]
      intro q hq he
      have hmq : q.id ∈ rest.map (fun q => q.id) :=
        List.mem_map.mpr ⟨q, hq, rfl⟩
      rw [he, ← h] at hmq
      exact hnd.1 hmq
    · simp only [removeFirstById, if_neg h]
      intro q hq
      rcases List.mem_cons.mp hq with he | hq'
      · subst he; exact h
      · exact ih hnd.2 q hq'

/-- The dispatch loop never adds to `messageQueue`: it only removes. -/
lemma processReady_mq_sublist (cfg : Config) (now : Nat)
    (exec : QueueItem → Bool) :
    ∀ (ready : List QueueItem) (s : V1State),
      ((processReady cfg now exec ready s).1.messageQueue).Sublist
        s.messageQueue := by
  intro ready
  induction ready with
  | nil => intro s; exact List.Sublist.refl _
  | cons m rest ih =>
    intro s
    simp only [processReady]
    by_cases hc : (checkRateLimitV1 cfg now s.rateWindow).1
    · simp only [if_pos hc]
      exact (ih _).trans (removeFirstById_sublist _ _)
    · simp only [if_neg hc]
      exact List.Sublist.refl _

/-- Any message the dispatch loop executed (whether its execution
resolved or threw) is absent from the final `messageQueue`. -/
lemma processReady_executed_removed (cfg : Config) (now : Nat)
    (exec : QueueItem → Bool) :
    ∀ (ready : List QueueItem) (s : V1State) (m : QueueItem) (b : Bool),
      (s.messageQueue.map (fun q => q.id)).Nodup →
      (m, b) ∈ (processReady cfg now exec ready s).2 →
      ∀ q ∈ (processReady cfg now exec ready s).1.messageQueue,
        q.id ≠ m.id := by
  intro ready
  induction ready with
  | nil => intro s m b _ hmem; cases hmem
  | cons m0 rest ih =>
    intro s m b hnd hmem
    simp only [processReady] at hmem ⊢
    by_cases hc : (checkRateLimitV1 cfg now s.rateWindow).1
    · simp only [if_pos hc] at hmem ⊢
      rcases List.mem_cons.mp hmem with he | hmem'
      · have hm0 : m = m0 := congrArg Prod.fst he
        subst hm0
        intro q hq
        have hsub := processReady_mq_sublist cfg now exec rest
          { messageQueue := removeFirstById s.messageQueue m.id,
            processingQueue :=
              (m.id :: s.processingQueue).filter (· ≠ m.id),
            rateWindow := (checkRateLimitV1 cfg now s.rateWindow).2 }
        have hq' := hsub.subset hq
        exact removeFirstById_id_ne s.messageQueue m.id hnd q hq'
      · have hnd2 : ((removeFirstById s.messageQueue m0.id).map
            (fun q => q.id)).Nodup :=
          ((removeFirstById_sublist s.messageQueue m0.id).map
            (fun q => q.id)).nodup hnd
        exact ih _ m b hnd2 hmem'
    · simp only [if_neg hc] at hmem
      cases hmem

/-- Claim C10: a message popped from the Delayed Dispatch Queue whose
execution throws is permanently lost — it was spliced out of
`messageQueue` before execution, the error is only caught and logged,
and the final queue both lacks the message and is a sublist of the
original (nothing is ever re-queued; this iteration of the bot has no
retry-job structure at all, so no retry job can be created). -/
theorem queued_message_lost_on_failure (cfg : Config) (now : Nat)
    (exec : QueueItem → Bool) (s : V1State) (m : QueueItem) (b : Bool)
    (hnd : (s.messageQueue.map (fun q => q.id)).Nodup)
    (hmem : (m, b) ∈ (processMessageQueue cfg now exec s).2)
    (hthrew : b = false) :
    (∀ q ∈ (processMessageQueue cfg now exec s).1.messageQueue,
       q.id ≠ m.id) ∧
    ((processMessageQueue cfg now exec s).1.messageQueue).Sublist
      s.messageQueue :=
  ⟨processReady_executed_removed cfg now exec _ s m b hnd hmem,
   processReady_mq_sublist cfg now exec _ s⟩

/-- Witness for `queued_message_lost_on_failure`: one ready message
whose execution throws. -/
theorem queued_message_lost_on_failure_witness :
    (∀ q ∈ (processMessageQueue testCfg 5 (fun _ => false)
        { messageQueue := [{ id := "q1", phoneNumber := "911234567890",
                             messageType := "text_message",
                             dataText := "hi", executeAt := 0 }] }
        ).1.messageQueue,
       q.id ≠ ({ id := "q1", phoneNumber := "911234567890",
                 messageType := "text_message", dataText := "hi",
                 executeAt := 0 } : QueueItem).id) ∧
    ((processMessageQueue testCfg 5 (fun _ => false)
        { messageQueue := [{ id := "q1", phoneNumber := "911234567890",
                             messageType := "text_message",
                             dataText := "hi", executeAt := 0 }] }
        ).1.messageQueue).Sublist
      [{ id := "q1", phoneNumber := "911234567890",
         messageType := "text_message", dataText := "hi",
         executeAt := 0 }] :=
  queued_message_lost_on_failure testCfg 5 (fun _ => false)
    { messageQueue := [{ id := "q1", phoneNumber := "911234567890",
                         messageType := "text_message", dataText := "hi",
                         executeAt := 0 }] }
    { id := "q1", phoneNumber := "911234567890",
      messageType := "text_message", dataText := "hi", executeAt := 0 }
    false (by decide) (by decide) rfl

end BBWAB
